import Mathlib

/-!
Verification of `internal/command/create_drain.go` (cf-drain-cli).

The Go program is a straight-line orchestration of calls into an injected
CLI connection.  We embed it shallowly: every external collaborator (the
CLI connection, the artifact downloader, the password reader, the UUID
generator, the cryptographic random source together with SHA-256/hex from
Go's standard library, and `path.Dir`) is a field of an `Env` record, and
each Go function becomes a Lean function from `Env` and its arguments to a
`Run`: the ordered trace of external calls it made plus its outcome
(normal return or `log.Fatalf` with a message).

Go's `net/url` query handling (`url.Parse`, `URL.Query`, `Values.Set`,
`Values.Encode`, `URL.String`) is semantically relevant to the drain-type
annotation step, so it is modelled faithfully at the byte level below
(Go strings are UTF-8 byte sequences; `Values.Encode` sorts keys and
re-escapes every key and value).
-/

namespace CfDrain

/-- Decidable equality of `Except` results, used to evaluate runs of the
embedded program on concrete inputs. -/
instance instDecEqExcept {e a : Type} [DecidableEq e] [DecidableEq a] :
    DecidableEq (Except e a) := fun x y =>
  match x, y with
  | Except.ok v, Except.ok w =>
    if h : v = w then isTrue (by rw [h]) else isFalse (by simp [h])
  | Except.error v, Except.error w =>
    if h : v = w then isTrue (by rw [h]) else isFalse (by simp [h])
  | Except.ok _, Except.error _ => isFalse (by simp)
  | Except.error _, Except.ok _ => isFalse (by simp)

/-- UTF-8 encoding of one character, as its list of bytes.  Go strings are
UTF-8 byte sequences, and Go's query escaping operates on bytes. -/
def charUtf8 (c : Char) : List Nat :=
  let n := c.toNat
  if n < 0x80 then [n]
  else if n < 0x800 then [0xC0 + n / 0x40, 0x80 + n % 0x40]
  else if n < 0x10000 then [0xE0 + n / 0x1000, 0x80 + n / 0x40 % 0x40, 0x80 + n % 0x40]
  else [0xF0 + n / 0x40000, 0x80 + n / 0x1000 % 0x40, 0x80 + n / 0x40 % 0x40, 0x80 + n % 0x40]

/-- The UTF-8 bytes of a string. -/
def utf8Bytes (s : String) : List Nat := (s.data.map charUtf8).flatten

/-- Bytes (all < 0x80 where used) back to a string, one character per byte. -/
def asciiString (bs : List Nat) : String := String.mk (bs.map Char.ofNat)

/-- Whether a byte is an ASCII hex digit (Go `ishex`). -/
def isHexByte (b : Nat) : Bool :=
  (48 ≤ b && b ≤ 57) || (97 ≤ b && b ≤ 102) || (65 ≤ b && b ≤ 70)

/-- Value of an ASCII hex digit byte (Go `unhex`). -/
def hexByteVal (b : Nat) : Nat :=
  if b ≤ 57 then b - 48 else if b ≤ 70 then b - 55 else b - 87

/-- Upper-case hex digit byte for a nibble (Go escapes with "0123456789ABCDEF"). -/
def hexUpper (n : Nat) : Nat := if n < 10 then 48 + n else 55 + n

/-- Go `net/url.shouldEscape` specialised to `encodeQueryComponent`:
alphanumerics and `-`, `_`, `.`, `~` stay as they are; everything else is
escaped (space specially, see `escapeByte`). -/
def shouldEscapeQuery (b : Nat) : Bool :=
  !((48 ≤ b && b ≤ 57) || (65 ≤ b && b ≤ 90) || (97 ≤ b && b ≤ 122) ||
    b == 45 || b == 95 || b == 46 || b == 126)

/-- One byte of Go `url.QueryEscape`: space becomes `+` (43), other escaped
bytes become `%XX` (37 = percent sign), the rest pass through. -/
def escapeByte (b : Nat) : List Nat :=
  if b == 32 then [43]
  else if shouldEscapeQuery b then [37, hexUpper (b / 16), hexUpper (b % 16)]
  else [b]

/-- Go `url.QueryEscape` on a byte string. -/
def queryEscape (bs : List Nat) : List Nat := (bs.map escapeByte).flatten

/-- Go `url.QueryUnescape` (query-component mode) on a byte string: `%XX`
with two hex digits decodes to a byte, `+` decodes to space, a malformed
percent escape is an error. -/
def queryUnescape : List Nat → Option (List Nat)
  | [] => some []
  | b :: rest =>
    if b = 37 then
      match rest with
      | h1 :: h2 :: rest2 =>
        if isHexByte h1 && isHexByte h2 then
          (queryUnescape rest2).map (fun t => (hexByteVal h1 * 16 + hexByteVal h2) :: t)
        else none
      | _ => none
    else if b = 43 then (queryUnescape rest).map (fun t => 32 :: t)
    else (queryUnescape rest).map (fun t => b :: t)

/-- Splits a byte string at every `&` (38) or `;` (59), the separators Go's
`url.ParseQuery` recognised at the time this repository was written.
A trailing separator yields a trailing empty chunk, which `parsePair`
skips just as Go's parser skips empty keys. -/
def splitChunksAux : List Nat → List Nat → List (List Nat)
  | [], acc => [acc.reverse]
  | b :: rest, acc =>
    if b == 38 || b == 59 then acc.reverse :: splitChunksAux rest []
    else splitChunksAux rest (b :: acc)

/-- Chunking step of Go `url.ParseQuery`; the empty query has no chunks. -/
def splitQueryChunks (q : List Nat) : List (List Nat) :=
  if q.isEmpty then [] else splitChunksAux q []

/-- Splits a chunk at its first `=` (61); with no `=` the value is empty,
exactly as in Go's `url.ParseQuery`. -/
def breakAtEq : List Nat → List Nat × List Nat
  | [] => ([], [])
  | b :: rest =>
    if b == 61 then ([], rest)
    else
      let p := breakAtEq rest
      (b :: p.1, p.2)

/-- One chunk of Go `url.ParseQuery`: empty chunks are skipped, the chunk is
split at the first `=`, and both halves are unescaped; a chunk whose key or
value fails to unescape is skipped (`URL.Query` discards the error). -/
def parsePair (chunk : List Nat) : Option (List Nat × List Nat) :=
  if chunk.isEmpty then none
  else
    match queryUnescape (breakAtEq chunk).1, queryUnescape (breakAtEq chunk).2 with
    | some k, some v => some (k, v)
    | _, _ => none

/-- Appends a value under a key in the grouped association-list model of
Go's `url.Values` (`m[key] = append(m[key], value)`). -/
def valuesAppend : List (List Nat × List (List Nat)) → List Nat → List Nat →
    List (List Nat × List (List Nat))
  | [], k, v => [(k, [v])]
  | (k0, vals) :: rest, k, v =>
    if k0 = k then (k0, vals ++ [v]) :: rest
    else (k0, vals) :: valuesAppend rest k v

/-- One iteration of Go `url.ParseQuery`: a chunk that parses appends its
pair, a skipped chunk leaves the map unchanged. -/
def parseStep (vs : List (List Nat × List (List Nat))) (chunk : List Nat) :
    List (List Nat × List (List Nat)) :=
  match parsePair chunk with
  | none => vs
  | some kv => valuesAppend vs kv.1 kv.2

/-- Go `url.ParseQuery` as used through `URL.Query` (errors discarded). -/
def parseQueryBytes (q : List Nat) : List (List Nat × List (List Nat)) :=
  (splitQueryChunks q).foldl parseStep []

/-- Go `url.Values.Set`: the key's value list becomes the one-element list
holding the new value. -/
def valuesSet (vs : List (List Nat × List (List Nat))) (k v : List Nat) :
    List (List Nat × List (List Nat)) :=
  if vs.any (fun p => decide (p.1 = k)) then
    vs.map (fun p => if p.1 = k then (k, [v]) else p)
  else vs ++ [(k, [v])]

/-- Bytewise lexicographic strict order on keys (Go sorts the keys of a
`url.Values` with `sort.Strings` before encoding). -/
def byteKeyLt : List Nat → List Nat → Bool
  | [], [] => false
  | [], _ :: _ => true
  | _ :: _, [] => false
  | a :: as, b :: bs => if a < b then true else if b < a then false else byteKeyLt as bs

/-- Insertion step of the key sort used by `sortValues`. -/
def insertByKey (p : List Nat × List (List Nat)) :
    List (List Nat × List (List Nat)) → List (List Nat × List (List Nat))
  | [] => [p]
  | q :: rest => if byteKeyLt q.1 p.1 then q :: insertByKey p rest else p :: q :: rest

/-- Sorts the grouped values by key (insertion sort; Go's `Encode` visits
keys in sorted order). -/
def sortValues (vs : List (List Nat × List (List Nat))) :
    List (List Nat × List (List Nat)) :=
  vs.foldr insertByKey []

/-- Joins byte strings with `&` (38) between consecutive items, the way
Go's `Values.Encode` writes `&` before every item except the first. -/
def joinAmp : List (List Nat) → List Nat
  | [] => []
  | [p] => p
  | p :: q :: rest => p ++ 38 :: joinAmp (q :: rest)

/-- Go `url.Values.Encode`: keys in sorted order, each value escaped and
emitted as `key=value`, items joined with `&`. -/
def encodeValues (vs : List (List Nat × List (List Nat))) : List Nat :=
  joinAmp
    (((sortValues vs).map (fun p => p.2.map (fun v => queryEscape p.1 ++ 61 :: queryEscape v))).flatten)

/-- The decoded key-value pairs of a raw query, in parse order: the
observable content of the query string. -/
def flattenValues (vs : List (List Nat × List (List Nat))) : List (List Nat × List Nat) :=
  (vs.map (fun p => p.2.map (fun v => (p.1, v)))).flatten

/-- Decoded pairs of a raw query byte string. -/
def decodedPairs (q : List Nat) : List (List Nat × List Nat) :=
  flattenValues (parseQueryBytes q)

/-- The parts of a Go `url.URL` this program reads or writes: everything
before the query, the raw query, and the fragment. -/
structure URL where
  beforeQuery : String
  rawQuery : String
  fragment : String
deriving DecidableEq

/-- Splits a character list at the first occurrence of a separator. -/
def breakAtChar (sep : Char) : List Char → List Char × Option (List Char)
  | [] => ([], none)
  | c :: rest =>
    if c = sep then ([], some rest)
    else
      let p := breakAtChar sep rest
      (c :: p.1, p.2)

/-- Model of Go `url.Parse` restricted to what create_drain.go observes:
the fragment starts at the first `#`, the raw query at the first `?` before
it.  The two error conditions modelled (a control character anywhere, a
leading `:` leaving no protocol scheme) approximate the cases in which Go's
parser rejects its input; no claim depends on the exact rejection set. -/
def parseURL (s : String) : Except String URL :=
  if s.data.any (fun c => c.toNat < 0x20 || c.toNat == 0x7f) then
    Except.error ("parse " ++ s ++ ": net/url: invalid control character in URL")
  else if s.data.head? = some ':' then
    Except.error ("parse " ++ s ++ ": missing protocol scheme")
  else
    let f := breakAtChar '#' s.data
    let q := breakAtChar '?' f.1
    Except.ok ⟨String.mk q.1, String.mk (q.2.getD []), String.mk (f.2.getD [])⟩

/-- Go `URL.String` for the parts modelled: query re-attached with `?` when
non-empty, fragment with `#` when non-empty. -/
def urlString (u : URL) : String :=
  u.beforeQuery
    ++ (if u.rawQuery = "" then "" else "?" ++ u.rawQuery)
    ++ (if u.fragment = "" then "" else "#" ++ u.fragment)

/-- The byte string "drain-type". -/
def drainTypeKey : List Nat := utf8Bytes "drain-type"

/-- Lines 81-83 of create_drain.go: `qValues := u.Query()`,
`qValues.Set("drain-type", opts.DrainType)`, `u.RawQuery = qValues.Encode()`. -/
def annotateDrainType (u : URL) (dt : String) : URL :=
  let q := parseQueryBytes (utf8Bytes u.rawQuery)
  let q2 := valuesSet q drainTypeKey (utf8Bytes dt)
  { u with rawQuery := asciiString (encodeValues q2) }

/-- Character-list core of Go `strings.Replace(s, old, new, 1)` for a
non-empty `old`: the first occurrence of `old` is replaced by `new`.  The
patterns this program replaces ("api.") are ASCII, so character-level
search agrees with Go's byte-level search. -/
def replaceFirstChars (old new : List Char) : List Char → List Char
  | [] => []
  | c :: rest =>
    if old.isPrefixOf (c :: rest) then new ++ (c :: rest).drop old.length
    else c :: replaceFirstChars old new rest

/-- Go `strings.Replace(s, old, new, 1)` with non-empty `old`. -/
def goReplaceFirst (s old new : String) : String :=
  String.mk (replaceFirstChars old.data new.data s.data)

/-- One character of Go `%q` quoting (`strconv.Quote`): quote and backslash
are escaped, ASCII control characters get their Go escape sequences, and
other characters pass through.  This agrees with Go on every printable
character; the names this program quotes are plain printable strings. -/
def goQuoteChar (c : Char) : List Char :=
  if c = '"' then ['\\', '"']
  else if c = '\\' then ['\\', '\\']
  else if c = Char.ofNat 7 then ['\\', 'a']
  else if c = Char.ofNat 8 then ['\\', 'b']
  else if c = Char.ofNat 9 then ['\\', 't']
  else if c = Char.ofNat 10 then ['\\', 'n']
  else if c = Char.ofNat 11 then ['\\', 'v']
  else if c = Char.ofNat 12 then ['\\', 'f']
  else if c = Char.ofNat 13 then ['\\', 'r']
  else if c.toNat < 32 || c.toNat == 127 then
    ['\\', 'x', Char.ofNat (hexUpper (c.toNat / 16) + 32), Char.ofNat (hexUpper (c.toNat % 16) + 32)]
  else [c]

/-- Go `fmt` verb `%q` on a string (as used in `log.Fatalf("... %q", name)`). -/
def goQuote (s : String) : String :=
  String.mk ('"' :: (s.data.map goQuoteChar).flatten ++ ['"'])

/-- Whether a string is a textual version-4 UUID as produced by the
`nu7hatch/gouuid` generator: 8-4-4-4-12 lower-case hex with version nibble
`4` and variant nibble in `8, 9, a, b`. -/
def isUUIDv4 (s : String) : Bool :=
  let l := s.data
  l.length == 36 &&
    (List.range 36).all (fun i =>
      let c := l.getD i ' '
      if i == 8 || i == 13 || i == 18 || i == 23 then c == '-'
      else if i == 14 then c == '4'
      else if i == 19 then c == '8' || c == '9' || c == 'a' || c == 'b'
      else (c ≥ '0' && c ≤ '9') || (c ≥ 'a' && c ≤ 'f'))

/-! ## The embedded program

External calls are recorded as events; collaborators are injected through
`Env`.  `log.Fatalf` terminates the Go process, so a run's outcome is
either normal completion or a fatal message, and nothing is ever executed
after a fatal outcome. -/

/-- One observable external call of the program. -/
inductive Ev where
  | getApp (name : String)
  | getService (name : String)
  | cli (cmd : List String)
  | cliQuiet (cmd : List String)
  | getCurrentOrg
  | getCurrentSpace
  | apiEndpoint
  | isSSLDisabled
  | download (assetName : String)
  | readPassword
deriving DecidableEq

/-- The injected collaborators: the plugin CLI connection (lookups return
the guid the program reads), the downloader, the password reader, and the
ambient sources the Go standard library supplies (`uuid.NewV4` at each of
its two call sites, `crypto/rand` bytes, SHA-256 plus `%x` rendering, and
`path.Dir`). -/
structure Env where
  getApp : String → Except String String
  getService : String → Except String String
  cliCommand : List String → Except String Unit
  cliCommandQuiet : List String → Except String Unit
  currentOrg : Except String String
  currentSpace : Except String String
  apiEndpoint : Except String String
  isSSLDisabled : Except String Bool
  download : String → String
  pathDir : String → String
  readPassword : Except String String
  serviceUuid : String
  groupUuid : String
  randBytes : List Nat
  sha256hex : List Nat → String

/-- Outcome of a run: normal return, or process termination by `log.Fatalf`
with the formatted message. -/
inductive Outcome where
  | ok
  | fatal (msg : String)
deriving DecidableEq

/-- A run: the ordered trace of external calls made, and the outcome. -/
structure Run where
  trace : List Ev
  out : Outcome
deriving DecidableEq

/-- The parsed flag record of lines 24-32 (`createDrainOpts`).  Flag parsing
itself is performed by the external `go-flags` library; claims about this
program are stated in terms of the parsed record and the remaining
positional arguments.  `Password` has no flag tag in the source and is
never set by the parser. -/
structure CreateDrainOpts where
  AdapterType : String
  DrainName : String
  DrainType : String
  Username : String
  Password : String
deriving DecidableEq

/-- Line 54-56: the record the program starts from; only `AdapterType` has
a non-zero default. -/
def defaultCreateDrainOpts : CreateDrainOpts :=
  { AdapterType := "service", DrainName := "", DrainType := "", Username := "", Password := "" }

/-- Lines 34-45 (`createDrainOpts.serviceName`): the explicit drain name if
given, otherwise `cf-drain-` followed by a fresh UUID (the injected value
the external generator returns at this call site). -/
def CreateDrainOpts.serviceName (o : CreateDrainOpts) (uuid : String) : String :=
  if o.DrainName ≠ "" then o.DrainName else "cf-drain-" ++ uuid

/-- Lines 246-253 (`validDrainType`). -/
def validDrainType (drainType : String) : Bool :=
  drainType == "logs" || drainType == "metrics" || drainType == "all"

/-- Lines 232-244 (`sourceID`): resolve as an application first; only on
failure resolve as a service instance and return its guid. -/
def sourceID (env : Env) (appOrServiceName : String) : List Ev × Except String String :=
  match env.getApp appOrServiceName with
  | Except.ok app => ([Ev.getApp appOrServiceName], Except.ok app)
  | Except.error _ =>
    match env.getService appOrServiceName with
    | Except.ok svc => ([Ev.getApp appOrServiceName, Ev.getService appOrServiceName], Except.ok svc)
    | Except.error e => ([Ev.getApp appOrServiceName, Ev.getService appOrServiceName], Except.error e)

/-- Lines 106-128 (`createAndBindService`): verify the app exists, create
the user-provided service with the drain URL, bind it. -/
def createAndBindService (env : Env) (u : URL) (appName serviceName : String) : Run :=
  match env.getApp appName with
  | Except.error e => ⟨[Ev.getApp appName], Outcome.fatal e⟩
  | Except.ok _ =>
    let c1 := ["create-user-provided-service", serviceName, "-l", urlString u]
    match env.cliCommand c1 with
    | Except.error e => ⟨[Ev.getApp appName, Ev.cli c1], Outcome.fatal e⟩
    | Except.ok _ =>
      let c2 := ["bind-service", appName, serviceName]
      match env.cliCommand c2 with
      | Except.error e => ⟨[Ev.getApp appName, Ev.cli c1, Ev.cli c2], Outcome.fatal e⟩
      | Except.ok _ => ⟨[Ev.getApp appName, Ev.cli c1, Ev.cli c2], Outcome.ok⟩

/-- Lines 268-303 (`createUser`): generate a password as the hex-rendered
SHA-256 digest of 20 random bytes (both taken from the injected sources),
create the user, and give it the SpaceDeveloper role in the current org and
space.  In Go a failure exits the process from inside `createUser`; here it
is returned and the caller turns it fatal, producing the same trace and
message. -/
def createUser (env : Env) (username : String) : List Ev × Except String String :=
  let password := env.sha256hex env.randBytes
  let c1 := ["create-user", username, password]
  match env.cliCommand c1 with
  | Except.error e => ([Ev.cli c1], Except.error e)
  | Except.ok _ =>
    match env.currentOrg with
    | Except.error e => ([Ev.cli c1, Ev.getCurrentOrg], Except.error e)
    | Except.ok orgName =>
      match env.currentSpace with
      | Except.error e => ([Ev.cli c1, Ev.getCurrentOrg, Ev.getCurrentSpace], Except.error e)
      | Except.ok spaceName =>
        let c2 := ["set-space-role", username, orgName, spaceName, "SpaceDeveloper"]
        match env.cliCommand c2 with
        | Except.error e =>
          ([Ev.cli c1, Ev.getCurrentOrg, Ev.getCurrentSpace, Ev.cli c2], Except.error e)
        | Except.ok _ =>
          ([Ev.cli c1, Ev.getCurrentOrg, Ev.getCurrentSpace, Ev.cli c2], Except.ok password)

/-- The eleven `set-env` commands of lines 204-216, in source order. -/
def envCommands (serviceName sid hostName uaaAddr username password logCacheAddr
    syslogURL skipCertVerify groupName : String) : List (List String) :=
  [["set-env", serviceName, "SOURCE_ID", sid],
   ["set-env", serviceName, "SOURCE_HOST_NAME", hostName],
   ["set-env", serviceName, "UAA_URL", uaaAddr],
   ["set-env", serviceName, "CLIENT_ID", "cf"],
   ["set-env", serviceName, "USERNAME", username],
   ["set-env", serviceName, "PASSWORD", password],
   ["set-env", serviceName, "LOG_CACHE_HTTP_ADDR", logCacheAddr],
   ["set-env", serviceName, "SYSLOG_URL", syslogURL],
   ["set-env", serviceName, "SKIP_CERT_VERIFY", skipCertVerify],
   ["set-env", serviceName, "GROUP_NAME", groupName],
   ["set-env", serviceName, "DRAIN_SCOPE", "single"]]

/-- The loop of lines 218-223: issue each command through the quiet CLI
variant, stopping fatally at the first failure. -/
def runQuietLoop (env : Env) : List (List String) → List Ev × Except String Unit
  | [] => ([], Except.ok ())
  | c :: rest =>
    match env.cliCommandQuiet c with
    | Except.error e => ([Ev.cliQuiet c], Except.error e)
    | Except.ok _ =>
      let p := runQuietLoop env rest
      (Ev.cliQuiet c :: p.1, p.2)

/-- Lines 179-186: the push command, with `-p` pointing at the directory
containing the downloaded forwarder artifact. -/
def pushCommand (env : Env) (serviceName : String) : List String :=
  ["push", serviceName, "-p", env.pathDir (env.download "syslog_forwarder"),
   "-b", "binary_buildpack", "-c", "./syslog_forwarder", "--no-start"]

/-- Lines 197-216: the eleven `set-env` commands with their derived values —
host name `org.space.target`, `api.` rewritten to `uaa.` and `log-cache.`,
the annotated syslog URL, the SSL setting rendered by Go's `%t`, and the
fresh group UUID. -/
def derivedEnvCommands (env : Env) (u : URL) (appOrServiceName serviceName sid orgName
    spaceName apiEp username password : String) (skipCertVerify : Bool) :
    List (List String) :=
  envCommands serviceName sid (orgName ++ "." ++ spaceName ++ "." ++ appOrServiceName)
    (goReplaceFirst apiEp "api." "uaa.") username password
    (goReplaceFirst apiEp "api." "log-cache.") (urlString u)
    (if skipCertVerify then "true" else "false") env.groupUuid

/-- Lines 177-229: the tail of `pushSyslogForwarder` after credentials are
settled — download the forwarder, push it stopped, read the SSL setting,
set the eleven environment variables, start the app.  `t` is the trace
accumulated so far. -/
def pushForwarderApp (env : Env) (u : URL) (appOrServiceName serviceName sid orgName
    spaceName apiEp username password : String) (t : List Ev) : Run :=
  let t1 := t ++ [Ev.download "syslog_forwarder"]
  let pushCmd := pushCommand env serviceName
  match env.cliCommand pushCmd with
  | Except.error e => ⟨t1 ++ [Ev.cli pushCmd], Outcome.fatal e⟩
  | Except.ok _ =>
    let t2 := t1 ++ [Ev.cli pushCmd, Ev.isSSLDisabled]
    match env.isSSLDisabled with
    | Except.error e => ⟨t2, Outcome.fatal e⟩
    | Except.ok skipCertVerify =>
      let cmds := derivedEnvCommands env u appOrServiceName serviceName sid orgName
        spaceName apiEp username password skipCertVerify
      let p := runQuietLoop env cmds
      match p.2 with
      | Except.error e => ⟨t2 ++ p.1, Outcome.fatal e⟩
      | Except.ok _ =>
        let startCmd := ["start", serviceName]
        match env.cliCommand startCmd with
        | Except.error e => ⟨t2 ++ p.1 ++ [Ev.cli startCmd], Outcome.fatal e⟩
        | Except.ok _ => ⟨t2 ++ p.1 ++ [Ev.cli startCmd], Outcome.ok⟩

/-- Lines 159-175: credential resolution.  With no username, one is derived
from the source id and a user is created; then, whenever the password is
still empty, it is read interactively and an empty entry is fatal.  (The
`log.Printf` prompt writes to the logger, not to a collaborator, so it is
not a trace event.) -/
def pushWithCredentials (env : Env) (u : URL) (appOrServiceName serviceName sid orgName
    spaceName apiEp username0 password0 : String) (t : List Ev) : Run :=
  let step :=
    if username0 = "" then
      let username := "drain-" ++ sid
      match createUser env username with
      | (tc, Except.error e) => Except.error (Run.mk (t ++ tc) (Outcome.fatal e))
      | (tc, Except.ok password) => Except.ok (t ++ tc, username, password)
    else Except.ok (t, username0, password0)
  match step with
  | Except.error r => r
  | Except.ok (t1, username, password) =>
    if username ≠ "" ∧ password = "" then
      let t2 := t1 ++ [Ev.readPassword]
      match env.readPassword with
      | Except.error e => ⟨t2, Outcome.fatal e⟩
      | Except.ok entered =>
        if entered = "" then ⟨t2, Outcome.fatal "Password cannot be blank."⟩
        else
          pushForwarderApp env u appOrServiceName serviceName sid orgName spaceName
            apiEp username entered t2
    else
      pushForwarderApp env u appOrServiceName serviceName sid orgName spaceName
        apiEp username password t1

/-- Lines 130-230 (`pushSyslogForwarder`): resolve the source, read the
session context, settle credentials, then deploy the forwarder. -/
def pushSyslogForwarder (env : Env) (u : URL)
    (appOrServiceName serviceName username password : String) : Run :=
  match sourceID env appOrServiceName with
  | (t, Except.error _) =>
    ⟨t, Outcome.fatal ("unknown application or service " ++ goQuote appOrServiceName)⟩
  | (t, Except.ok sid) =>
    let t1 := t ++ [Ev.getCurrentOrg]
    match env.currentOrg with
    | Except.error e => ⟨t1, Outcome.fatal e⟩
    | Except.ok orgName =>
      let t2 := t1 ++ [Ev.getCurrentSpace]
      match env.currentSpace with
      | Except.error e => ⟨t2, Outcome.fatal e⟩
      | Except.ok spaceName =>
        let t3 := t2 ++ [Ev.apiEndpoint]
        match env.apiEndpoint with
        | Except.error e => ⟨t3, Outcome.fatal e⟩
        | Except.ok apiEp =>
          pushWithCredentials env u appOrServiceName serviceName sid orgName spaceName
            apiEp username password t3

/-- Lines 47-104 (`CreateDrain`), from the point after the external
`go-flags` parse: validate the positional count, parse the drain URL,
optionally validate and inject the drain type, and dispatch on the adapter
type. -/
def CreateDrain (env : Env) (opts : CreateDrainOpts) (args : List String) : Run :=
  match args with
  | [appOrServiceName, drainURL] =>
    match parseURL drainURL with
    | Except.error e => ⟨[], Outcome.fatal ("Invalid syslog drain URL: " ++ e)⟩
    | Except.ok u0 =>
      let checkType : Except String URL :=
        if opts.DrainType ≠ "" then
          if ¬ validDrainType opts.DrainType then
            Except.error ("Invalid type: " ++ opts.DrainType)
          else Except.ok (annotateDrainType u0 opts.DrainType)
        else Except.ok u0
      match checkType with
      | Except.error msg => ⟨[], Outcome.fatal msg⟩
      | Except.ok u =>
        if opts.AdapterType = "service" then
          createAndBindService env u appOrServiceName (opts.serviceName env.serviceUuid)
        else if opts.AdapterType = "application" then
          pushSyslogForwarder env u appOrServiceName (opts.serviceName env.serviceUuid)
            opts.Username opts.Password
        else
          ⟨[], Outcome.fatal "unsupported adapter type, must be 'service' or 'application'"⟩
  | _ =>
    ⟨[], Outcome.fatal ("Invalid arguments, expected 2, got " ++ toString args.length ++ ".")⟩

/-! ## Concrete environments used to instantiate the theorems -/

/-- A fully successful environment mirroring the stub connection of the
repository's test suite. -/
def envA : Env := {
  getApp := fun _ => Except.ok "application-guid"
  getService := fun _ => Except.error "unknown service"
  cliCommand := fun _ => Except.ok ()
  cliCommandQuiet := fun _ => Except.ok ()
  currentOrg := Except.ok "org-name"
  currentSpace := Except.ok "space-name"
  apiEndpoint := Except.ok "api.example.com"
  isSSLDisabled := Except.ok false
  download := fun _ => "/downloaded/temp/dir/syslog_forwarder"
  pathDir := fun _ => "/downloaded/temp/dir"
  readPassword := Except.ok "some-password"
  serviceUuid := "8a4a1323-0e09-4c79-a11c-ab6d5deaafcc"
  groupUuid := "7b59ca99-bd9c-4e59-9a45-eccf6bbbb5ab"
  randBytes := [1, 2, 3, 4, 5, 6, 7, 8, 9, 10, 11, 12, 13, 14, 15, 16, 17, 18, 19, 20]
  sha256hex := fun _ => "stub-sha256-hex-digest" }

/-! ## General lemmas about the command loop -/

/-- When every command succeeds, the loop of lines 218-223 issues exactly
the given commands, in order. -/
theorem runQuietLoop_all_ok (env : Env) (cmds : List (List String))
    (h : ∀ c ∈ cmds, env.cliCommandQuiet c = Except.ok ()) :
    runQuietLoop env cmds = (cmds.map Ev.cliQuiet, Except.ok ()) := by
  induction cmds with
  | nil => rfl
  | cons c rest ih =>
    have hc := h c (by simp)
    simp [runQuietLoop, hc, ih (fun x hx => h x (List.mem_cons_of_mem _ hx))]

/-- When the first failing command is at position `i`, the loop issues the
commands up to and including it and stops with that error: the earlier
commands are already issued (no rollback) and nothing later is attempted. -/
theorem runQuietLoop_first_err (env : Env) (cmds : List (List String)) (i : Nat)
    (ci : List String) (e : String)
    (hget : cmds[i]? = some ci)
    (hok : ∀ c ∈ cmds.take i, env.cliCommandQuiet c = Except.ok ())
    (herr : env.cliCommandQuiet ci = Except.error e) :
    runQuietLoop env cmds = ((cmds.take (i + 1)).map Ev.cliQuiet, Except.error e) := by
  induction cmds generalizing i with
  | nil => simp at hget
  | cons c rest ih =>
    cases i with
    | zero =>
      simp only [List.getElem?_cons_zero, Option.some.injEq] at hget
      subst hget
      simp [runQuietLoop, herr]
    | succ n =>
      have hc := hok c (by simp)
      have hrest := ih n (by simpa using hget)
        (fun x hx => hok x (by simp [List.take_succ_cons, hx]))
      simp [runQuietLoop, hc, hrest]

/-! ## Claim C8: wrong positional-argument count -/

/-- C8: with any positional-argument count other than 2 (after flag
parsing), the invocation fails with `Invalid arguments, expected 2, got
<n>.` and no external call of any kind has been made. -/
theorem c8_invalid_argument_count (env : Env) (opts : CreateDrainOpts)
    (args : List String) (h : args.length ≠ 2) :
    CreateDrain env opts args =
      ⟨[], Outcome.fatal ("Invalid arguments, expected 2, got " ++ toString args.length ++ ".")⟩ := by
  match args with
  | [] => rfl
  | [a] => rfl
  | [a, b] => exact absurd rfl h
  | a :: b :: c :: rest => rfl

/-- Witness for C8 at the empty argument vector. -/
theorem c8_invalid_argument_count_witness :
    ([] : List String).length ≠ 2 ∧
      CreateDrain envA defaultCreateDrainOpts [] =
        ⟨[], Outcome.fatal "Invalid arguments, expected 2, got 0."⟩ :=
  ⟨by decide, by rw [c8_invalid_argument_count envA defaultCreateDrainOpts [] (by decide)]; rfl⟩

/-! ## Claim C9: unsupported adapter type -/

/-- C9: the default adapter type is `service`, and an invocation that
reaches dispatch (two positional arguments, parsable URL, absent or valid
drain type) with an adapter type that is neither `service` nor
`application` fails with the fixed message, before any external call. -/
theorem c9_unsupported_adapter_type :
    defaultCreateDrainOpts.AdapterType = "service" ∧
      ∀ (env : Env) (opts : CreateDrainOpts) (name urlStr : String) (u : URL),
        parseURL urlStr = Except.ok u →
        (opts.DrainType = "" ∨ validDrainType opts.DrainType = true) →
        opts.AdapterType ≠ "service" →
        opts.AdapterType ≠ "application" →
        CreateDrain env opts [name, urlStr] =
          ⟨[], Outcome.fatal "unsupported adapter type, must be 'service' or 'application'"⟩ := by
  refine ⟨rfl, ?_⟩
  intro env opts name urlStr u hu htype hs ha
  rcases htype with htype | htype
  · simp [CreateDrain, hu, htype, hs, ha]
  · by_cases hempty : opts.DrainType = ""
    · simp [CreateDrain, hu, hempty, hs, ha]
    · simp [CreateDrain, hu, hempty, htype, hs, ha]

/-! ## Characterisation lemmas for the service path -/

/-- A failed application lookup on the service path is fatal with the
lookup error verbatim, before any CLI command. -/
theorem createAndBindService_lookup_err (env : Env) (u : URL) (a s e : String)
    (h : env.getApp a = Except.error e) :
    createAndBindService env u a s = ⟨[Ev.getApp a], Outcome.fatal e⟩ := by
  simp [createAndBindService, h]

/-- When the lookup and both commands succeed, the service path issues
exactly the create command then the bind command. -/
theorem createAndBindService_all_ok (env : Env) (u : URL) (a s g : String)
    (hApp : env.getApp a = Except.ok g)
    (h1 : env.cliCommand ["create-user-provided-service", s, "-l", urlString u] = Except.ok ())
    (h2 : env.cliCommand ["bind-service", a, s] = Except.ok ()) :
    createAndBindService env u a s =
      ⟨[Ev.getApp a, Ev.cli ["create-user-provided-service", s, "-l", urlString u],
        Ev.cli ["bind-service", a, s]], Outcome.ok⟩ := by
  simp [createAndBindService, hApp, h1, h2]

/-- A failed create command is fatal with its error; the bind command is
never issued. -/
theorem createAndBindService_create_err (env : Env) (u : URL) (a s g e : String)
    (hApp : env.getApp a = Except.ok g)
    (h1 : env.cliCommand ["create-user-provided-service", s, "-l", urlString u] =
      Except.error e) :
    createAndBindService env u a s =
      ⟨[Ev.getApp a, Ev.cli ["create-user-provided-service", s, "-l", urlString u]],
        Outcome.fatal e⟩ := by
  simp [createAndBindService, hApp, h1]

/-- A failed bind command is fatal with its error; the created service
instance stays in the trace — nothing is rolled back. -/
theorem createAndBindService_bind_err (env : Env) (u : URL) (a s g e : String)
    (hApp : env.getApp a = Except.ok g)
    (h1 : env.cliCommand ["create-user-provided-service", s, "-l", urlString u] = Except.ok ())
    (h2 : env.cliCommand ["bind-service", a, s] = Except.error e) :
    createAndBindService env u a s =
      ⟨[Ev.getApp a, Ev.cli ["create-user-provided-service", s, "-l", urlString u],
        Ev.cli ["bind-service", a, s]], Outcome.fatal e⟩ := by
  simp [createAndBindService, hApp, h1, h2]

/-- Dispatch on the service path: an invocation that reaches dispatch with
adapter type `service` runs `createAndBindService` on the (possibly
annotated) URL and the computed service name. -/
theorem CreateDrain_service_dispatch (env : Env) (opts : CreateDrainOpts)
    (target urlStr : String) (u0 : URL)
    (hAd : opts.AdapterType = "service")
    (hParse : parseURL urlStr = Except.ok u0)
    (hType : opts.DrainType = "" ∨ validDrainType opts.DrainType = true) :
    CreateDrain env opts [target, urlStr] =
      createAndBindService env
        (if opts.DrainType = "" then u0 else annotateDrainType u0 opts.DrainType)
        target (opts.serviceName env.serviceUuid) := by
  by_cases hempty : opts.DrainType = ""
  · simp [CreateDrain, hParse, hempty, hAd]
  · rcases hType with h | h
    · exact absurd h hempty
    · simp [CreateDrain, hParse, hempty, h, hAd]

/-- Dispatch on the application path. -/
theorem CreateDrain_application_dispatch (env : Env) (opts : CreateDrainOpts)
    (target urlStr : String) (u0 : URL)
    (hAd : opts.AdapterType = "application")
    (hParse : parseURL urlStr = Except.ok u0)
    (hType : opts.DrainType = "" ∨ validDrainType opts.DrainType = true) :
    CreateDrain env opts [target, urlStr] =
      pushSyslogForwarder env
        (if opts.DrainType = "" then u0 else annotateDrainType u0 opts.DrainType)
        target (opts.serviceName env.serviceUuid) opts.Username opts.Password := by
  by_cases hempty : opts.DrainType = ""
  · simp [CreateDrain, hParse, hempty, hAd]
  · rcases hType with h | h
    · exact absurd h hempty
    · simp [CreateDrain, hParse, hempty, h, hAd]

/-! ## Claim C1: service-adapter provisioning sequence -/

/-- C1: on a dispatch-reaching service-adapter invocation, the target is
first verified as an application (a lookup failure is fatal with the error
verbatim and nothing else is called); on success exactly the
create-user-provided-service and bind-service commands are issued, in that
order, naming the caller-supplied drain name when given and otherwise the
freshly generated `cf-drain-<UUID-v4>` name. -/
theorem c1_service_adapter_sequence (env : Env) (opts : CreateDrainOpts)
    (target urlStr : String) (u0 : URL)
    (hAd : opts.AdapterType = "service")
    (hParse : parseURL urlStr = Except.ok u0)
    (hType : opts.DrainType = "" ∨ validDrainType opts.DrainType = true) :
    (∀ e, env.getApp target = Except.error e →
      CreateDrain env opts [target, urlStr] = ⟨[Ev.getApp target], Outcome.fatal e⟩) ∧
    (∀ g, env.getApp target = Except.ok g →
      env.cliCommand
        ["create-user-provided-service", opts.serviceName env.serviceUuid, "-l",
          urlString (if opts.DrainType = "" then u0 else annotateDrainType u0 opts.DrainType)] =
        Except.ok () →
      env.cliCommand ["bind-service", target, opts.serviceName env.serviceUuid] =
        Except.ok () →
      CreateDrain env opts [target, urlStr] =
        ⟨[Ev.getApp target,
          Ev.cli ["create-user-provided-service", opts.serviceName env.serviceUuid, "-l",
            urlString (if opts.DrainType = "" then u0 else annotateDrainType u0 opts.DrainType)],
          Ev.cli ["bind-service", target, opts.serviceName env.serviceUuid]], Outcome.ok⟩) ∧
    (opts.DrainName ≠ "" → opts.serviceName env.serviceUuid = opts.DrainName) ∧
    (opts.DrainName = "" → isUUIDv4 env.serviceUuid = true →
      ∃ g, opts.serviceName env.serviceUuid = "cf-drain-" ++ g ∧ isUUIDv4 g = true) := by
  have hd := CreateDrain_service_dispatch env opts target urlStr u0 hAd hParse hType
  refine ⟨?_, ?_, ?_, ?_⟩
  · intro e he
    rw [hd, createAndBindService_lookup_err env _ target _ e he]
  · intro g hg h1 h2
    rw [hd, createAndBindService_all_ok env _ target _ g hg h1 h2]
  · intro hdn
    simp [CreateDrainOpts.serviceName, hdn]
  · intro hdn huuid
    exact ⟨env.serviceUuid, by simp [CreateDrainOpts.serviceName, hdn], huuid⟩

/-- Witness for C1: the drain-name invocation of the repository's test
suite, issuing exactly the two commands. -/
theorem c1_service_adapter_sequence_witness :
    parseURL "syslog://a.com?a=b" = Except.ok ⟨"syslog://a.com", "a=b", ""⟩ ∧
    envA.getApp "app-name" = Except.ok "application-guid" ∧
    CreateDrain envA { defaultCreateDrainOpts with DrainName := "my-drain" }
        ["app-name", "syslog://a.com?a=b"] =
      ⟨[Ev.getApp "app-name",
        Ev.cli ["create-user-provided-service", "my-drain", "-l", "syslog://a.com?a=b"],
        Ev.cli ["bind-service", "app-name", "my-drain"]], Outcome.ok⟩ := by
  refine ⟨by decide, rfl, ?_⟩
  have h := (c1_service_adapter_sequence envA
    { defaultCreateDrainOpts with DrainName := "my-drain" } "app-name" "syslog://a.com?a=b"
    ⟨"syslog://a.com", "a=b", ""⟩ rfl (by decide) (Or.inl rfl)).2.1
    "application-guid" rfl rfl rfl
  exact h.trans (by decide)

/-! ## Characterisation lemmas for the application path -/

/-- With a resolving application lookup, a readable session context, and
non-empty credentials, the application path reaches the deployment stage
with those credentials. -/
theorem pushSyslogForwarder_reach (env : Env) (u : URL)
    (target svcName un pw sid org space api : String)
    (hApp : env.getApp target = Except.ok sid)
    (hOrg : env.currentOrg = Except.ok org)
    (hSpace : env.currentSpace = Except.ok space)
    (hApi : env.apiEndpoint = Except.ok api)
    (hUn : un ≠ "") (hPw : pw ≠ "") :
    pushSyslogForwarder env u target svcName un pw =
      pushForwarderApp env u target svcName sid org space api un pw
        [Ev.getApp target, Ev.getCurrentOrg, Ev.getCurrentSpace, Ev.apiEndpoint] := by
  simp [pushSyslogForwarder, sourceID, hApp, hOrg, hSpace, hApi, pushWithCredentials, hUn, hPw]

/-- A failed push is fatal with its error; the trace ends at the push
command. -/
theorem pushForwarderApp_push_err (env : Env) (u : URL)
    (target svcName sid org space api un pw e : String) (t : List Ev)
    (hPush : env.cliCommand (pushCommand env svcName) = Except.error e) :
    pushForwarderApp env u target svcName sid org space api un pw t =
      ⟨t ++ [Ev.download "syslog_forwarder", Ev.cli (pushCommand env svcName)],
        Outcome.fatal e⟩ := by
  simp [pushForwarderApp, hPush]

/-- With push, SSL query, every set-env, and start all succeeding, the
deployment stage issues the push, the eleven set-env commands in order, and
the start command. -/
theorem pushForwarderApp_all_ok (env : Env) (u : URL)
    (target svcName sid org space api un pw : String) (ssl : Bool) (t : List Ev)
    (hPush : env.cliCommand (pushCommand env svcName) = Except.ok ())
    (hSsl : env.isSSLDisabled = Except.ok ssl)
    (hLoop : ∀ c ∈ derivedEnvCommands env u target svcName sid org space api un pw ssl,
      env.cliCommandQuiet c = Except.ok ())
    (hStart : env.cliCommand ["start", svcName] = Except.ok ()) :
    pushForwarderApp env u target svcName sid org space api un pw t =
      ⟨t ++ [Ev.download "syslog_forwarder", Ev.cli (pushCommand env svcName), Ev.isSSLDisabled]
          ++ (derivedEnvCommands env u target svcName sid org space api un pw ssl).map
              Ev.cliQuiet
          ++ [Ev.cli ["start", svcName]],
        Outcome.ok⟩ := by
  simp [pushForwarderApp, hPush, hSsl, runQuietLoop_all_ok env _ hLoop, hStart]

/-- A failed SSL query is fatal with its error before any set-env. -/
theorem pushForwarderApp_ssl_err (env : Env) (u : URL)
    (target svcName sid org space api un pw e : String) (t : List Ev)
    (hPush : env.cliCommand (pushCommand env svcName) = Except.ok ())
    (hSsl : env.isSSLDisabled = Except.error e) :
    pushForwarderApp env u target svcName sid org space api un pw t =
      ⟨t ++ [Ev.download "syslog_forwarder", Ev.cli (pushCommand env svcName), Ev.isSSLDisabled],
        Outcome.fatal e⟩ := by
  simp [pushForwarderApp, hPush, hSsl]

/-- A first set-env failure at position `i` is fatal with its error: the
earlier set-env commands stay issued and nothing after the failing one is
attempted. -/
theorem pushForwarderApp_setenv_err (env : Env) (u : URL)
    (target svcName sid org space api un pw e : String) (ssl : Bool) (t : List Ev)
    (i : Nat) (ci : List String)
    (hPush : env.cliCommand (pushCommand env svcName) = Except.ok ())
    (hSsl : env.isSSLDisabled = Except.ok ssl)
    (hget : (derivedEnvCommands env u target svcName sid org space api un pw ssl)[i]? =
      some ci)
    (htake : ∀ c ∈ (derivedEnvCommands env u target svcName sid org space api un pw ssl).take i,
      env.cliCommandQuiet c = Except.ok ())
    (herr : env.cliCommandQuiet ci = Except.error e) :
    pushForwarderApp env u target svcName sid org space api un pw t =
      ⟨t ++ [Ev.download "syslog_forwarder", Ev.cli (pushCommand env svcName), Ev.isSSLDisabled]
          ++ ((derivedEnvCommands env u target svcName sid org space api un pw ssl).take (i + 1)).map
              Ev.cliQuiet,
        Outcome.fatal e⟩ := by
  simp [pushForwarderApp, hPush, hSsl,
    runQuietLoop_first_err env _ i ci e hget htake herr]

/-- A failed start is fatal with its error; every set-env stays issued. -/
theorem pushForwarderApp_start_err (env : Env) (u : URL)
    (target svcName sid org space api un pw e : String) (ssl : Bool) (t : List Ev)
    (hPush : env.cliCommand (pushCommand env svcName) = Except.ok ())
    (hSsl : env.isSSLDisabled = Except.ok ssl)
    (hLoop : ∀ c ∈ derivedEnvCommands env u target svcName sid org space api un pw ssl,
      env.cliCommandQuiet c = Except.ok ())
    (hStart : env.cliCommand ["start", svcName] = Except.error e) :
    pushForwarderApp env u target svcName sid org space api un pw t =
      ⟨t ++ [Ev.download "syslog_forwarder", Ev.cli (pushCommand env svcName), Ev.isSSLDisabled]
          ++ (derivedEnvCommands env u target svcName sid org space api un pw ssl).map
              Ev.cliQuiet
          ++ [Ev.cli ["start", svcName]],
        Outcome.fatal e⟩ := by
  simp [pushForwarderApp, hPush, hSsl, runQuietLoop_all_ok env _ hLoop, hStart]

/-! ## Claim C2: the eleven set-env commands -/

/-- C2: after a successful push on the application path, exactly eleven
set-env commands are issued on the pushed application, with the claimed
names in the claimed order (`CLIENT_ID` fixed to `cf`, `GROUP_NAME` the
fresh group id, `DRAIN_SCOPE` fixed to `single`); when all succeed they are
followed only by the start command, and a first failure at any position is
fatal with that error, keeps the earlier set-env commands issued, and
attempts nothing further. -/
theorem c2_eleven_set_env_commands (env : Env) (u : URL)
    (target svcName un pw sid org space api : String) (ssl : Bool)
    (hApp : env.getApp target = Except.ok sid)
    (hOrg : env.currentOrg = Except.ok org)
    (hSpace : env.currentSpace = Except.ok space)
    (hApi : env.apiEndpoint = Except.ok api)
    (hUn : un ≠ "") (hPw : pw ≠ "")
    (hPush : env.cliCommand (pushCommand env svcName) = Except.ok ())
    (hSsl : env.isSSLDisabled = Except.ok ssl) :
    (derivedEnvCommands env u target svcName sid org space api un pw ssl).length = 11 ∧
    (derivedEnvCommands env u target svcName sid org space api un pw ssl).map
        (fun c => c.take 3) =
      [["set-env", svcName, "SOURCE_ID"], ["set-env", svcName, "SOURCE_HOST_NAME"],
       ["set-env", svcName, "UAA_URL"], ["set-env", svcName, "CLIENT_ID"],
       ["set-env", svcName, "USERNAME"], ["set-env", svcName, "PASSWORD"],
       ["set-env", svcName, "LOG_CACHE_HTTP_ADDR"], ["set-env", svcName, "SYSLOG_URL"],
       ["set-env", svcName, "SKIP_CERT_VERIFY"], ["set-env", svcName, "GROUP_NAME"],
       ["set-env", svcName, "DRAIN_SCOPE"]] ∧
    (derivedEnvCommands env u target svcName sid org space api un pw ssl)[3]? =
      some ["set-env", svcName, "CLIENT_ID", "cf"] ∧
    (derivedEnvCommands env u target svcName sid org space api un pw ssl)[9]? =
      some ["set-env", svcName, "GROUP_NAME", env.groupUuid] ∧
    (derivedEnvCommands env u target svcName sid org space api un pw ssl)[10]? =
      some ["set-env", svcName, "DRAIN_SCOPE", "single"] ∧
    ((∀ c ∈ derivedEnvCommands env u target svcName sid org space api un pw ssl,
        env.cliCommandQuiet c = Except.ok ()) →
      env.cliCommand ["start", svcName] = Except.ok () →
      pushSyslogForwarder env u target svcName un pw =
        ⟨[Ev.getApp target, Ev.getCurrentOrg, Ev.getCurrentSpace, Ev.apiEndpoint,
            Ev.download "syslog_forwarder", Ev.cli (pushCommand env svcName), Ev.isSSLDisabled]
            ++ (derivedEnvCommands env u target svcName sid org space api un pw ssl).map
                Ev.cliQuiet
            ++ [Ev.cli ["start", svcName]],
          Outcome.ok⟩) ∧
    (∀ (i : Nat) (ci : List String) (e : String),
      (derivedEnvCommands env u target svcName sid org space api un pw ssl)[i]? = some ci →
      (∀ c ∈ (derivedEnvCommands env u target svcName sid org space api un pw ssl).take i,
        env.cliCommandQuiet c = Except.ok ()) →
      env.cliCommandQuiet ci = Except.error e →
      pushSyslogForwarder env u target svcName un pw =
        ⟨[Ev.getApp target, Ev.getCurrentOrg, Ev.getCurrentSpace, Ev.apiEndpoint,
            Ev.download "syslog_forwarder", Ev.cli (pushCommand env svcName), Ev.isSSLDisabled]
            ++ ((derivedEnvCommands env u target svcName sid org space api un pw ssl).take
                (i + 1)).map Ev.cliQuiet,
          Outcome.fatal e⟩) := by
  have hreach := pushSyslogForwarder_reach env u target svcName un pw sid org space api
    hApp hOrg hSpace hApi hUn hPw
  refine ⟨rfl, rfl, rfl, rfl, rfl, ?_, ?_⟩
  · intro hLoop hStart
    rw [hreach, pushForwarderApp_all_ok env u target svcName sid org space api un pw ssl _
      hPush hSsl hLoop hStart]
    simp
  · intro i ci e hget htake herr
    rw [hreach, pushForwarderApp_setenv_err env u target svcName sid org space api un pw e ssl _
      i ci hPush hSsl hget htake herr]
    simp

/-- Witness for C2 at the all-successful stub connection, reproducing the
test suite's expected command sequence. -/
theorem c2_eleven_set_env_commands_witness :
    envA.getApp "app-name" = Except.ok "application-guid" ∧
    (derivedEnvCommands envA ⟨"syslog://a.com", "a=b", ""⟩ "app-name" "my-drain"
        "application-guid" "org-name" "space-name" "api.example.com" "my-user"
        "some-password" false).map (fun c => c.take 3) =
      [["set-env", "my-drain", "SOURCE_ID"], ["set-env", "my-drain", "SOURCE_HOST_NAME"],
       ["set-env", "my-drain", "UAA_URL"], ["set-env", "my-drain", "CLIENT_ID"],
       ["set-env", "my-drain", "USERNAME"], ["set-env", "my-drain", "PASSWORD"],
       ["set-env", "my-drain", "LOG_CACHE_HTTP_ADDR"], ["set-env", "my-drain", "SYSLOG_URL"],
       ["set-env", "my-drain", "SKIP_CERT_VERIFY"], ["set-env", "my-drain", "GROUP_NAME"],
       ["set-env", "my-drain", "DRAIN_SCOPE"]] ∧
    (pushSyslogForwarder envA ⟨"syslog://a.com", "a=b", ""⟩ "app-name" "my-drain" "my-user"
        "some-password").out = Outcome.ok := by
  have h := c2_eleven_set_env_commands envA ⟨"syslog://a.com", "a=b", ""⟩ "app-name" "my-drain"
    "my-user" "some-password" "application-guid" "org-name" "space-name" "api.example.com"
    false rfl rfl rfl rfl (by decide) (by decide) rfl rfl
  refine ⟨rfl, h.2.1, ?_⟩
  rw [h.2.2.2.2.2.1 (fun c _ => rfl) rfl]

/-! ## Claim C7: derived host name and rewritten endpoints -/

/-- C7: on the application path the SOURCE_HOST_NAME value is
`org.space.target`, UAA_URL rewrites the first `api.` of the endpoint to
`uaa.`, LOG_CACHE_HTTP_ADDR rewrites it to `log-cache.`; under a successful
run those three set-env commands appear in the trace, and on the endpoint
`api.example.com` with org `org-name`, space `space-name`, target
`app-name` the derived values are the three claimed strings. -/
theorem c7_derived_host_and_endpoints (env : Env) (u : URL)
    (target svcName un pw sid org space api : String) (ssl : Bool)
    (hApp : env.getApp target = Except.ok sid)
    (hOrg : env.currentOrg = Except.ok org)
    (hSpace : env.currentSpace = Except.ok space)
    (hApi : env.apiEndpoint = Except.ok api)
    (hUn : un ≠ "") (hPw : pw ≠ "")
    (hPush : env.cliCommand (pushCommand env svcName) = Except.ok ())
    (hSsl : env.isSSLDisabled = Except.ok ssl)
    (hLoop : ∀ c ∈ derivedEnvCommands env u target svcName sid org space api un pw ssl,
      env.cliCommandQuiet c = Except.ok ())
    (hStart : env.cliCommand ["start", svcName] = Except.ok ()) :
    (derivedEnvCommands env u target svcName sid org space api un pw ssl)[1]? =
      some ["set-env", svcName, "SOURCE_HOST_NAME", org ++ "." ++ space ++ "." ++ target] ∧
    (derivedEnvCommands env u target svcName sid org space api un pw ssl)[2]? =
      some ["set-env", svcName, "UAA_URL", goReplaceFirst api "api." "uaa."] ∧
    (derivedEnvCommands env u target svcName sid org space api un pw ssl)[6]? =
      some ["set-env", svcName, "LOG_CACHE_HTTP_ADDR",
        goReplaceFirst api "api." "log-cache."] ∧
    Ev.cliQuiet ["set-env", svcName, "SOURCE_HOST_NAME",
        org ++ "." ++ space ++ "." ++ target] ∈
      (pushSyslogForwarder env u target svcName un pw).trace ∧
    Ev.cliQuiet ["set-env", svcName, "UAA_URL", goReplaceFirst api "api." "uaa."] ∈
      (pushSyslogForwarder env u target svcName un pw).trace ∧
    Ev.cliQuiet ["set-env", svcName, "LOG_CACHE_HTTP_ADDR",
        goReplaceFirst api "api." "log-cache."] ∈
      (pushSyslogForwarder env u target svcName un pw).trace ∧
    "org-name" ++ "." ++ "space-name" ++ "." ++ "app-name" = "org-name.space-name.app-name" ∧
    goReplaceFirst "api.example.com" "api." "uaa." = "uaa.example.com" ∧
    goReplaceFirst "api.example.com" "api." "log-cache." = "log-cache.example.com" := by
  have hreach := pushSyslogForwarder_reach env u target svcName un pw sid org space api
    hApp hOrg hSpace hApi hUn hPw
  have hrun := pushForwarderApp_all_ok env u target svcName sid org space api un pw ssl
    [Ev.getApp target, Ev.getCurrentOrg, Ev.getCurrentSpace, Ev.apiEndpoint]
    hPush hSsl hLoop hStart
  refine ⟨rfl, rfl, rfl, ?_, ?_, ?_, by decide, by decide, by decide⟩
  all_goals
    rw [hreach, hrun]
    simp [derivedEnvCommands, envCommands]

/-- Witness for C7 at the stub connection of the test suite. -/
theorem c7_derived_host_and_endpoints_witness :
    envA.apiEndpoint = Except.ok "api.example.com" ∧
    Ev.cliQuiet ["set-env", "my-drain", "UAA_URL", "uaa.example.com"] ∈
      (pushSyslogForwarder envA ⟨"syslog://a.com", "a=b", ""⟩ "app-name" "my-drain" "my-user"
        "some-password").trace ∧
    Ev.cliQuiet ["set-env", "my-drain", "SOURCE_HOST_NAME", "org-name.space-name.app-name"] ∈
      (pushSyslogForwarder envA ⟨"syslog://a.com", "a=b", ""⟩ "app-name" "my-drain" "my-user"
        "some-password").trace := by
  have h := c7_derived_host_and_endpoints envA ⟨"syslog://a.com", "a=b", ""⟩ "app-name"
    "my-drain" "my-user" "some-password" "application-guid" "org-name" "space-name"
    "api.example.com" false rfl rfl rfl rfl (by decide) (by decide) rfl rfl
    (fun c _ => rfl) rfl
  refine ⟨rfl, ?_, ?_⟩
  · have := h.2.2.2.2.1
    simpa using this
  · have := h.2.2.2.1
    simpa using this

/-! ## Claim C6: source-identity resolution order -/

/-- C6: source resolution tries the application lookup first (on success no
service lookup happens and the application guid is the source id), falls
back to the service-instance lookup and its guid, and when both fail the
application path aborts with `unknown application or service "<name>"`. -/
theorem c6_source_identity_resolution :
    (∀ (env : Env) (n g : String), env.getApp n = Except.ok g →
      sourceID env n = ([Ev.getApp n], Except.ok g)) ∧
    (∀ (env : Env) (n e g : String), env.getApp n = Except.error e →
      env.getService n = Except.ok g →
      sourceID env n = ([Ev.getApp n, Ev.getService n], Except.ok g)) ∧
    (∀ (env : Env) (u : URL) (n s un pw e1 e2 : String),
      env.getApp n = Except.error e1 → env.getService n = Except.error e2 →
      pushSyslogForwarder env u n s un pw =
        ⟨[Ev.getApp n, Ev.getService n],
          Outcome.fatal ("unknown application or service " ++ goQuote n)⟩) := by
  refine ⟨?_, ?_, ?_⟩
  · intro env n g h
    simp [sourceID, h]
  · intro env n e g h1 h2
    simp [sourceID, h1, h2]
  · intro env u n s un pw e1 e2 h1 h2
    simp [pushSyslogForwarder, sourceID, h1, h2]

/-- Witness for C6 at a connection that knows neither the application nor
the service: the run aborts with the quoted-name message. -/
theorem c6_source_identity_resolution_witness :
    { envA with getApp := fun _ => Except.error "unknown app" }.getApp "app-name" =
        Except.error "unknown app" ∧
    pushSyslogForwarder { envA with getApp := fun _ => Except.error "unknown app" }
        ⟨"syslog://a.com", "a=b", ""⟩ "app-name" "my-drain" "my-user" "" =
      ⟨[Ev.getApp "app-name", Ev.getService "app-name"],
        Outcome.fatal "unknown application or service \"app-name\""⟩ := by
  refine ⟨rfl, ?_⟩
  have h := c6_source_identity_resolution.2.2
    { envA with getApp := fun _ => Except.error "unknown app" }
    ⟨"syslog://a.com", "a=b", ""⟩ "app-name" "my-drain" "my-user" ""
    "unknown app" "unknown service" rfl rfl
  exact h.trans (by decide)

/-- A generated `drain-<source-id>` username is never the empty string. -/
theorem drainName_ne_empty (sid : String) : ("drain-" ++ sid) ≠ "" := by
  intro h
  have := congrArg String.length h
  simp [String.length_append] at this
  exact absurd this.1 (by decide)

/-! ## Claim C4 (amended): credential resolution on the application path -/

/-- C4 amended: with no username, the username is `drain-<source-id>` and a
user is created whose password is the hex-rendered SHA-256 digest of the 20
injected random bytes, then granted SpaceDeveloper in the current org and
space, and the run continues with those credentials without prompting; with
a username and no password, the password is read interactively, an empty
entry is fatal with `Password cannot be blank.` (the code's message carries
a trailing period), and a non-empty entry is the password used. -/
theorem c4_credential_resolution (env : Env) (u : URL)
    (target svcName sid org space api : String)
    (hApp : env.getApp target = Except.ok sid)
    (hOrg : env.currentOrg = Except.ok org)
    (hSpace : env.currentSpace = Except.ok space)
    (hApi : env.apiEndpoint = Except.ok api) :
    (∀ pw0 : String, env.randBytes.length = 20 →
      env.sha256hex env.randBytes ≠ "" →
      env.cliCommand ["create-user", "drain-" ++ sid, env.sha256hex env.randBytes] =
        Except.ok () →
      env.cliCommand ["set-space-role", "drain-" ++ sid, org, space, "SpaceDeveloper"] =
        Except.ok () →
      pushSyslogForwarder env u target svcName "" pw0 =
        pushForwarderApp env u target svcName sid org space api ("drain-" ++ sid)
          (env.sha256hex env.randBytes)
          [Ev.getApp target, Ev.getCurrentOrg, Ev.getCurrentSpace, Ev.apiEndpoint,
           Ev.cli ["create-user", "drain-" ++ sid, env.sha256hex env.randBytes],
           Ev.getCurrentOrg, Ev.getCurrentSpace,
           Ev.cli ["set-space-role", "drain-" ++ sid, org, space, "SpaceDeveloper"]]) ∧
    (∀ un : String, un ≠ "" → env.readPassword = Except.ok "" →
      pushSyslogForwarder env u target svcName un "" =
        ⟨[Ev.getApp target, Ev.getCurrentOrg, Ev.getCurrentSpace, Ev.apiEndpoint,
          Ev.readPassword], Outcome.fatal "Password cannot be blank."⟩) ∧
    (∀ un entered : String, un ≠ "" → env.readPassword = Except.ok entered → entered ≠ "" →
      pushSyslogForwarder env u target svcName un "" =
        pushForwarderApp env u target svcName sid org space api un entered
          [Ev.getApp target, Ev.getCurrentOrg, Ev.getCurrentSpace, Ev.apiEndpoint,
           Ev.readPassword]) := by
  refine ⟨?_, ?_, ?_⟩
  · intro pw0 _ hne hc1 hc2
    simp [pushSyslogForwarder, sourceID, hApp, hOrg, hSpace, hApi, pushWithCredentials,
      createUser, hc1, hc2, drainName_ne_empty sid, hne]
  · intro un hun hrp
    simp [pushSyslogForwarder, sourceID, hApp, hOrg, hSpace, hApi, pushWithCredentials,
      hun, hrp]
  · intro un entered hun hrp hent
    simp [pushSyslogForwarder, sourceID, hApp, hOrg, hSpace, hApi, pushWithCredentials,
      hun, hrp, hent]

/-- Witness for the amended C4: a supplied username prompts for a password
and a non-empty entry lets the run complete. -/
theorem c4_credential_resolution_witness :
    ("my-user" : String) ≠ "" ∧
    envA.readPassword = Except.ok "some-password" ∧
    ("some-password" : String) ≠ "" ∧
    (pushSyslogForwarder envA ⟨"syslog://a.com", "a=b", ""⟩ "app-name" "my-drain"
        "my-user" "").out = Outcome.ok := by
  have h := (c4_credential_resolution envA ⟨"syslog://a.com", "a=b", ""⟩ "app-name" "my-drain"
    "application-guid" "org-name" "space-name" "api.example.com" rfl rfl rfl rfl).2.2
    "my-user" "some-password" (by decide) rfl (by decide)
  exact ⟨by decide, rfl, by decide, by rw [h]; decide⟩

/-- Counterexample to C4 as stated: on blank interactive input the code's
message is `Password cannot be blank.` — with a trailing period — not the
claimed `Password cannot be blank`. -/
theorem c4_blank_password_counterexample :
    { envA with readPassword := Except.ok "" }.readPassword = Except.ok "" ∧
    (pushSyslogForwarder { envA with readPassword := Except.ok "" }
        ⟨"syslog://a.com", "a=b", ""⟩ "app-name" "my-drain" "my-user" "").out =
      Outcome.fatal "Password cannot be blank." ∧
    Outcome.fatal "Password cannot be blank." ≠ Outcome.fatal "Password cannot be blank" :=
  ⟨rfl, by decide, by decide⟩

/-! ## Claim C5 (amended): first failure aborts, nothing is rolled back -/

/-- C5 amended: at every step of either strategy a failure of the injected
executor is immediately fatal, the trace ends at the failing call (nothing
further is issued and nothing already issued is compensated), and the
diagnostic is the executor's error verbatim — except the application-path
source lookup, whose double failure is reported as
`unknown application or service "<name>"` instead of either underlying
error. -/
theorem c5_first_failure_aborts :
    (∀ (env : Env) (u : URL) (a s e : String), env.getApp a = Except.error e →
      createAndBindService env u a s = ⟨[Ev.getApp a], Outcome.fatal e⟩) ∧
    (∀ (env : Env) (u : URL) (a s g e : String), env.getApp a = Except.ok g →
      env.cliCommand ["create-user-provided-service", s, "-l", urlString u] = Except.error e →
      createAndBindService env u a s =
        ⟨[Ev.getApp a, Ev.cli ["create-user-provided-service", s, "-l", urlString u]],
          Outcome.fatal e⟩) ∧
    (∀ (env : Env) (u : URL) (a s g e : String), env.getApp a = Except.ok g →
      env.cliCommand ["create-user-provided-service", s, "-l", urlString u] = Except.ok () →
      env.cliCommand ["bind-service", a, s] = Except.error e →
      createAndBindService env u a s =
        ⟨[Ev.getApp a, Ev.cli ["create-user-provided-service", s, "-l", urlString u],
          Ev.cli ["bind-service", a, s]], Outcome.fatal e⟩) ∧
    (∀ (env : Env) (u : URL) (target svcName un pw sid org space api e : String),
      env.getApp target = Except.ok sid → env.currentOrg = Except.ok org →
      env.currentSpace = Except.ok space → env.apiEndpoint = Except.ok api →
      un ≠ "" → pw ≠ "" →
      env.cliCommand (pushCommand env svcName) = Except.error e →
      pushSyslogForwarder env u target svcName un pw =
        ⟨[Ev.getApp target, Ev.getCurrentOrg, Ev.getCurrentSpace, Ev.apiEndpoint,
          Ev.download "syslog_forwarder", Ev.cli (pushCommand env svcName)],
          Outcome.fatal e⟩) ∧
    (∀ (env : Env) (u : URL) (target svcName un pw sid org space api e : String) (ssl : Bool)
        (i : Nat) (ci : List String),
      env.getApp target = Except.ok sid → env.currentOrg = Except.ok org →
      env.currentSpace = Except.ok space → env.apiEndpoint = Except.ok api →
      un ≠ "" → pw ≠ "" →
      env.cliCommand (pushCommand env svcName) = Except.ok () →
      env.isSSLDisabled = Except.ok ssl →
      (derivedEnvCommands env u target svcName sid org space api un pw ssl)[i]? = some ci →
      (∀ c ∈ (derivedEnvCommands env u target svcName sid org space api un pw ssl).take i,
        env.cliCommandQuiet c = Except.ok ()) →
      env.cliCommandQuiet ci = Except.error e →
      pushSyslogForwarder env u target svcName un pw =
        ⟨[Ev.getApp target, Ev.getCurrentOrg, Ev.getCurrentSpace, Ev.apiEndpoint,
            Ev.download "syslog_forwarder", Ev.cli (pushCommand env svcName), Ev.isSSLDisabled]
            ++ ((derivedEnvCommands env u target svcName sid org space api un pw ssl).take
                (i + 1)).map Ev.cliQuiet,
          Outcome.fatal e⟩) ∧
    (∀ (env : Env) (u : URL) (target svcName un pw sid org space api e : String) (ssl : Bool),
      env.getApp target = Except.ok sid → env.currentOrg = Except.ok org →
      env.currentSpace = Except.ok space → env.apiEndpoint = Except.ok api →
      un ≠ "" → pw ≠ "" →
      env.cliCommand (pushCommand env svcName) = Except.ok () →
      env.isSSLDisabled = Except.ok ssl →
      (∀ c ∈ derivedEnvCommands env u target svcName sid org space api un pw ssl,
        env.cliCommandQuiet c = Except.ok ()) →
      env.cliCommand ["start", svcName] = Except.error e →
      pushSyslogForwarder env u target svcName un pw =
        ⟨[Ev.getApp target, Ev.getCurrentOrg, Ev.getCurrentSpace, Ev.apiEndpoint,
            Ev.download "syslog_forwarder", Ev.cli (pushCommand env svcName), Ev.isSSLDisabled]
            ++ (derivedEnvCommands env u target svcName sid org space api un pw ssl).map
                Ev.cliQuiet
            ++ [Ev.cli ["start", svcName]],
          Outcome.fatal e⟩) ∧
    (∀ (env : Env) (u : URL) (n s un pw e1 e2 : String),
      env.getApp n = Except.error e1 → env.getService n = Except.error e2 →
      pushSyslogForwarder env u n s un pw =
        ⟨[Ev.getApp n, Ev.getService n],
          Outcome.fatal ("unknown application or service " ++ goQuote n)⟩) := by
  refine ⟨?_, ?_, ?_, ?_, ?_, ?_, ?_⟩
  · intro env u a s e h
    exact createAndBindService_lookup_err env u a s e h
  · intro env u a s g e hApp h1
    exact createAndBindService_create_err env u a s g e hApp h1
  · intro env u a s g e hApp h1 h2
    exact createAndBindService_bind_err env u a s g e hApp h1 h2
  · intro env u target svcName un pw sid org space api e hApp hOrg hSpace hApi hUn hPw hPush
    rw [pushSyslogForwarder_reach env u target svcName un pw sid org space api
      hApp hOrg hSpace hApi hUn hPw,
      pushForwarderApp_push_err env u target svcName sid org space api un pw e _ hPush]
    simp
  · intro env u target svcName un pw sid org space api e ssl i ci hApp hOrg hSpace hApi hUn
      hPw hPush hSsl hget htake herr
    rw [pushSyslogForwarder_reach env u target svcName un pw sid org space api
      hApp hOrg hSpace hApi hUn hPw,
      pushForwarderApp_setenv_err env u target svcName sid org space api un pw e ssl _
        i ci hPush hSsl hget htake herr]
    simp
  · intro env u target svcName un pw sid org space api e ssl hApp hOrg hSpace hApi hUn hPw
      hPush hSsl hLoop hStart
    rw [pushSyslogForwarder_reach env u target svcName un pw sid org space api
      hApp hOrg hSpace hApi hUn hPw,
      pushForwarderApp_start_err env u target svcName sid org space api un pw e ssl _
        hPush hSsl hLoop hStart]
    simp
  · intro env u n s un pw e1 e2 h1 h2
    simp [pushSyslogForwarder, sourceID, h1, h2]

/-- Witness for the amended C5: a failing bind command on the service path
is fatal with its own message and leaves the created service in the trace. -/
theorem c5_first_failure_aborts_witness :
    { envA with
        cliCommand := fun c =>
          if c.head? = some "bind-service" then Except.error "failed to bind"
          else Except.ok () }.cliCommand
        ["bind-service", "app-name", "my-drain"] = Except.error "failed to bind" ∧
    createAndBindService
        { envA with
          cliCommand := fun c =>
            if c.head? = some "bind-service" then Except.error "failed to bind"
            else Except.ok () }
        ⟨"syslog://a.com", "a=b", ""⟩ "app-name" "my-drain" =
      ⟨[Ev.getApp "app-name",
        Ev.cli ["create-user-provided-service", "my-drain", "-l", "syslog://a.com?a=b"],
        Ev.cli ["bind-service", "app-name", "my-drain"]],
        Outcome.fatal "failed to bind"⟩ := by
  refine ⟨by decide, ?_⟩
  have h := c5_first_failure_aborts.2.2.1
    { envA with
      cliCommand := fun c =>
        if c.head? = some "bind-service" then Except.error "failed to bind"
        else Except.ok () }
    ⟨"syslog://a.com", "a=b", ""⟩ "app-name" "my-drain" "application-guid" "failed to bind"
    rfl (by decide) (by decide)
  exact h.trans (by decide)

/-- Counterexample to C5 as stated: when the application-path lookup step
fails (both executor lookups return errors), the diagnostic is the fixed
message `unknown application or service "app-name"`, which equals neither
underlying error message. -/
theorem c5_first_failure_counterexample :
    { envA with getApp := fun _ => Except.error "unknown app" }.getApp "app-name" =
        Except.error "unknown app" ∧
    { envA with getApp := fun _ => Except.error "unknown app" }.getService "app-name" =
        Except.error "unknown service" ∧
    (pushSyslogForwarder { envA with getApp := fun _ => Except.error "unknown app" }
        ⟨"syslog://a.com", "a=b", ""⟩ "app-name" "my-drain" "my-user" "my-password").out =
      Outcome.fatal "unknown application or service \"app-name\"" ∧
    Outcome.fatal "unknown application or service \"app-name\"" ≠
      Outcome.fatal "unknown app" ∧
    Outcome.fatal "unknown application or service \"app-name\"" ≠
      Outcome.fatal "unknown service" :=
  ⟨rfl, rfl, by decide, by decide, by decide⟩

/-! ## Claim C10: the forwarder application's name -/

/-- C10: the application path is dispatched with the same computed name as
the service path — the caller-supplied drain name when given, otherwise the
fresh `cf-drain-<UUID-v4>` name — and that name is the one the push command
and every set-env command carry. -/
theorem c10_forwarder_application_name (env : Env) (opts : CreateDrainOpts)
    (target urlStr : String) (u0 : URL)
    (hAd : opts.AdapterType = "application")
    (hParse : parseURL urlStr = Except.ok u0)
    (hType : opts.DrainType = "" ∨ validDrainType opts.DrainType = true) :
    CreateDrain env opts [target, urlStr] =
      pushSyslogForwarder env
        (if opts.DrainType = "" then u0 else annotateDrainType u0 opts.DrainType)
        target (opts.serviceName env.serviceUuid) opts.Username opts.Password ∧
    (opts.DrainName ≠ "" → opts.serviceName env.serviceUuid = opts.DrainName) ∧
    (opts.DrainName = "" → opts.serviceName env.serviceUuid = "cf-drain-" ++ env.serviceUuid ∧
      (isUUIDv4 env.serviceUuid = true →
        ∃ g, opts.serviceName env.serviceUuid = "cf-drain-" ++ g ∧ isUUIDv4 g = true)) ∧
    (pushCommand env (opts.serviceName env.serviceUuid))[1]? =
      some (opts.serviceName env.serviceUuid) ∧
    (∀ (u : URL) (sid org space api un pw : String) (ssl : Bool),
      ∀ cmd ∈ derivedEnvCommands env u target (opts.serviceName env.serviceUuid) sid org space
        api un pw ssl, cmd[1]? = some (opts.serviceName env.serviceUuid)) := by
  refine ⟨CreateDrain_application_dispatch env opts target urlStr u0 hAd hParse hType,
    ?_, ?_, rfl, ?_⟩
  · intro hdn
    simp [CreateDrainOpts.serviceName, hdn]
  · intro hdn
    refine ⟨by simp [CreateDrainOpts.serviceName, hdn], fun huuid => ?_⟩
    exact ⟨env.serviceUuid, by simp [CreateDrainOpts.serviceName, hdn], huuid⟩
  · intro u sid org space api un pw ssl cmd hc
    simp only [derivedEnvCommands, envCommands, List.mem_cons, List.not_mem_nil,
      or_false] at hc
    rcases hc with rfl | rfl | rfl | rfl | rfl | rfl | rfl | rfl | rfl | rfl | rfl <;> rfl

/-- Witness for C10: with no drain name the forwarder application is pushed
under the generated `cf-drain-<uuid>` name. -/
theorem c10_forwarder_application_name_witness :
    parseURL "syslog://a.com?a=b" = Except.ok ⟨"syslog://a.com", "a=b", ""⟩ ∧
    ({ defaultCreateDrainOpts with
        AdapterType := "application",
        Username := "my-user" } : CreateDrainOpts).serviceName envA.serviceUuid =
      "cf-drain-8a4a1323-0e09-4c79-a11c-ab6d5deaafcc" ∧
    isUUIDv4 envA.serviceUuid = true := by
  have h := (c10_forwarder_application_name envA
    { defaultCreateDrainOpts with
      AdapterType := "application",
      Username := "my-user" }
    "app-name" "syslog://a.com?a=b" ⟨"syslog://a.com", "a=b", ""⟩ rfl (by decide)
    (Or.inl rfl)).2.2.1 rfl
  exact ⟨by decide, h.1.trans (by decide), by decide⟩

/-! ## Query escaping round-trip (for claim C3) -/

/-- Escaping a nibble gives a hex digit that decodes back to it. -/
theorem hexUpper_spec : ∀ x < 16, isHexByte (hexUpper x) = true ∧ hexByteVal (hexUpper x) = x := by
  decide

/-- A byte the query escaper leaves in place is alphanumeric or `-_.~`, so
it is none of the separator or escape bytes and is ASCII. -/
theorem shouldEscapeQuery_false_facts (b : Nat) (h : shouldEscapeQuery b = false) :
    b ≠ 37 ∧ b ≠ 43 ∧ b ≠ 38 ∧ b ≠ 59 ∧ b ≠ 61 ∧ b < 128 := by
  simp only [shouldEscapeQuery, Bool.not_eq_false', Bool.or_eq_true, Bool.and_eq_true,
    decide_eq_true_eq, beq_iff_eq] at h
  omega

/-- Unescaping undoes the escaping of a single byte at the head of a
stream. -/
theorem queryUnescape_escapeByte (b : Nat) (hb : b < 256) (tail : List Nat) :
    queryUnescape (escapeByte b ++ tail) = (queryUnescape tail).map (fun t => b :: t) := by
  by_cases h32 : b = 32
  · subst h32
    rw [show escapeByte 32 ++ tail = 43 :: tail from rfl, queryUnescape.eq_def]
    simp
  · by_cases hesc : shouldEscapeQuery b
    · have h1 := hexUpper_spec (b / 16) (by omega)
      have h2 := hexUpper_spec (b % 16) (by omega)
      have hmod : b / 16 * 16 + b % 16 = b := by omega
      have e : escapeByte b ++ tail =
          37 :: hexUpper (b / 16) :: hexUpper (b % 16) :: tail := by
        simp [escapeByte, h32, hesc]
      rw [e, queryUnescape.eq_def]
      simp [h1.1, h2.1, h1.2, h2.2, hmod]
    · have hf := shouldEscapeQuery_false_facts b (by simpa using hesc)
      have e : escapeByte b ++ tail = b :: tail := by
        simp [escapeByte, h32, hesc]
      rw [e, queryUnescape.eq_def]
      simp [hf.1, hf.2.1]

/-- Go's query unescape undoes Go's query escape on any byte string. -/
theorem queryUnescape_queryEscape (bs : List Nat) (h : ∀ b ∈ bs, b < 256) :
    queryUnescape (queryEscape bs) = some bs := by
  induction bs with
  | nil => rfl
  | cons b rest ih =>
    have e : queryEscape (b :: rest) = escapeByte b ++ queryEscape rest := by
      simp [queryEscape]
    rw [e, queryUnescape_escapeByte b (h b (by simp)) (queryEscape rest),
      ih (fun x hx => h x (by simp [hx]))]
    rfl

/-- No byte of an escaped string is `&`, `;`, or `=`. -/
theorem mem_queryEscape_not_sep (bs : List Nat) (x : Nat) (hx : x ∈ queryEscape bs) :
    x ≠ 38 ∧ x ≠ 59 ∧ x ≠ 61 := by
  obtain ⟨b, hb, hxl⟩ : ∃ b ∈ bs, x ∈ escapeByte b := by
    simpa [queryEscape] using hx
  by_cases h32 : b = 32
  · subst h32
    simp [escapeByte] at hxl
    omega
  · by_cases hesc : shouldEscapeQuery b
    · simp [escapeByte, h32, hesc] at hxl
      rcases hxl with rfl | rfl | rfl
      · omega
      · unfold hexUpper
        split <;> omega
      · unfold hexUpper
        split <;> omega
    · have hf := shouldEscapeQuery_false_facts b (by simpa using hesc)
      simp [escapeByte, h32, hesc] at hxl
      subst hxl
      exact ⟨hf.2.2.1, hf.2.2.2.1, hf.2.2.2.2.1⟩

/-- Every byte of an escaped byte string (bytes < 256) is ASCII. -/
theorem mem_queryEscape_lt_128 (bs : List Nat) (h : ∀ b ∈ bs, b < 256) (x : Nat)
    (hx : x ∈ queryEscape bs) : x < 128 := by
  obtain ⟨b, hb, hxl⟩ : ∃ b ∈ bs, x ∈ escapeByte b := by
    simpa [queryEscape] using hx
  have hb256 := h b hb
  by_cases h32 : b = 32
  · subst h32
    simp [escapeByte] at hxl
    omega
  · by_cases hesc : shouldEscapeQuery b
    · simp [escapeByte, h32, hesc] at hxl
      rcases hxl with rfl | rfl | rfl
      · omega
      · unfold hexUpper
        split <;> omega
      · unfold hexUpper
        split <;> omega
    · have hf := shouldEscapeQuery_false_facts b (by simpa using hesc)
      simp [escapeByte, h32, hesc] at hxl
      subst hxl
      exact hf.2.2.2.2.2

/-- Every byte of the UTF-8 encoding of a string is a byte. -/
theorem mem_utf8Bytes_lt_256 (s : String) (b : Nat) (hb : b ∈ utf8Bytes s) : b < 256 := by
  obtain ⟨c, hc2, hbl⟩ : ∃ c ∈ s.data, b ∈ charUtf8 c := by
    simpa [utf8Bytes] using hb
  have hc : c.toNat < 1114112 := by
    have h := c.valid
    have e : c.toNat = c.val.toNat := rfl
    rcases h with h | h <;> omega
  simp only [charUtf8] at hbl
  split at hbl
  · simp at hbl
    omega
  · split at hbl
    · simp at hbl
      rcases hbl with rfl | rfl <;> omega
    · split at hbl
      · simp at hbl
        rcases hbl with rfl | rfl | rfl <;> omega
      · simp at hbl
        rcases hbl with rfl | rfl | rfl | rfl <;> omega

/-- An ASCII character list read back as UTF-8 gives the original bytes. -/
theorem utf8Bytes_asciiString (bs : List Nat) (h : ∀ b ∈ bs, b < 128) :
    utf8Bytes (asciiString bs) = bs := by
  have hchar : ∀ b < 128, charUtf8 (Char.ofNat b) = [b] := by decide
  induction bs with
  | nil => rfl
  | cons b rest ih =>
    have hb := h b (by simp)
    have e : utf8Bytes (asciiString (b :: rest)) =
        charUtf8 (Char.ofNat b) ++ utf8Bytes (asciiString rest) := by
      simp [utf8Bytes, asciiString]
    rw [e, hchar b hb, ih (fun x hx => h x (by simp [hx]))]
    rfl

/-! ## Chunking and parsing lemmas (for claim C3) -/

/-- Splitting a separator-free byte string yields the single chunk made of
the accumulator and the string. -/
theorem splitChunksAux_no_sep (p : List Nat) (acc : List Nat)
    (h : ∀ b ∈ p, b ≠ 38 ∧ b ≠ 59) :
    splitChunksAux p acc = [acc.reverse ++ p] := by
  induction p generalizing acc with
  | nil => simp [splitChunksAux]
  | cons b rest ih =>
    have hb := h b (by simp)
    have e : (b == 38 || b == 59) = false := by simp [hb.1, hb.2]
    simp [splitChunksAux, e, ih (b :: acc) (fun x hx => h x (by simp [hx]))]

/-- Splitting recognises a separator right after a separator-free piece. -/
theorem splitChunksAux_append_sep (p rest acc : List Nat)
    (h : ∀ b ∈ p, b ≠ 38 ∧ b ≠ 59) :
    splitChunksAux (p ++ 38 :: rest) acc =
      (acc.reverse ++ p) :: splitChunksAux rest [] := by
  induction p generalizing acc with
  | nil => simp [splitChunksAux]
  | cons b p2 ih =>
    have hb := h b (by simp)
    have e : (b == 38 || b == 59) = false := by simp [hb.1, hb.2]
    simp [splitChunksAux, e, ih (b :: acc) (fun x hx => h x (by simp [hx]))]

/-- The join of a non-empty head piece is non-empty. -/
theorem joinAmp_cons_ne_nil (q : List Nat) (rest : List (List Nat)) (hq : q ≠ []) :
    joinAmp (q :: rest) ≠ [] := by
  cases rest with
  | nil => simpa [joinAmp] using hq
  | cons r rest2 =>
    simp only [joinAmp]
    exact List.append_ne_nil_of_left_ne_nil hq _

/-- Chunking the `&`-join of non-empty separator-free pieces recovers the
pieces. -/
theorem splitQueryChunks_joinAmp (ps : List (List Nat))
    (hne : ∀ p ∈ ps, p ≠ [])
    (hsep : ∀ p ∈ ps, ∀ b ∈ p, b ≠ 38 ∧ b ≠ 59) :
    splitQueryChunks (joinAmp ps) = ps := by
  induction ps with
  | nil => rfl
  | cons p ps2 ih =>
    have hp := hne p (by simp)
    cases ps2 with
    | nil =>
      have hempty : (joinAmp [p]).isEmpty = false := by
        simp only [joinAmp, List.isEmpty_eq_false]
        exact hp
      simp only [splitQueryChunks, hempty, Bool.false_eq_true, if_false, joinAmp]
      simpa [hp] using splitChunksAux_no_sep p [] (hsep p (by simp))
    | cons q ps3 =>
      have hq := hne q (by simp)
      have hJ : joinAmp (q :: ps3) ≠ [] := joinAmp_cons_ne_nil q ps3 hq
      have hempty : (joinAmp (p :: q :: ps3)).isEmpty = false := by
        simp only [joinAmp, List.isEmpty_eq_false]
        exact List.append_ne_nil_of_left_ne_nil hp _
      have hih := ih (fun x hx => hne x (by simp [hx]))
        (fun x hx => hsep x (by simp [hx]))
      have hJempty : (joinAmp (q :: ps3)).isEmpty = false := by
        simp only [List.isEmpty_eq_false]
        exact hJ
      rw [splitQueryChunks, hJempty] at hih
      simp only [Bool.false_eq_true, if_false] at hih
      simp only [splitQueryChunks, hempty, Bool.false_eq_true, if_false, joinAmp]
      rw [splitChunksAux_append_sep p _ [] (hsep p (by simp))]
      simp [hih]

/-- Splitting a chunk at the first `=` after an `=`-free key recovers the
two halves. -/
theorem breakAtEq_append (k v : List Nat) (hk : ∀ b ∈ k, b ≠ 61) :
    breakAtEq (k ++ 61 :: v) = (k, v) := by
  induction k with
  | nil => simp [breakAtEq]
  | cons b k2 ih =>
    have hb := hk b (by simp)
    have e : (b == 61) = false := by simp [hb]
    simp [breakAtEq, e, ih (fun x hx => hk x (by simp [hx]))]

/-- Parsing an encoded `key=value` piece recovers the decoded pair. -/
theorem parsePair_encoded (k v : List Nat) (hk : ∀ b ∈ k, b < 256)
    (hv : ∀ b ∈ v, b < 256) :
    parsePair (queryEscape k ++ 61 :: queryEscape v) = some (k, v) := by
  have hno61 : ∀ b ∈ queryEscape k, b ≠ 61 := fun b hb =>
    (mem_queryEscape_not_sep k b hb).2.2
  have hempty : (queryEscape k ++ 61 :: queryEscape v).isEmpty = false := by
    simp only [List.isEmpty_eq_false]
    intro hcontra
    rcases List.append_eq_nil.mp hcontra with ⟨-, h2⟩
    exact List.cons_ne_nil _ _ h2
  simp [parsePair, hempty, breakAtEq_append _ _ hno61,
    queryUnescape_queryEscape k hk, queryUnescape_queryEscape v hv]

/-! ## Rebuilding the value map from encoded pieces (for claim C3) -/

/-- Appending under a fresh key adds a new singleton entry at the end. -/
theorem valuesAppend_not_mem (vs : List (List Nat × List (List Nat))) (k v : List Nat)
    (h : ∀ p ∈ vs, p.1 ≠ k) :
    valuesAppend vs k v = vs ++ [(k, [v])] := by
  induction vs with
  | nil => rfl
  | cons p rest ih =>
    obtain ⟨k0, vals⟩ := p
    have hne : k0 ≠ k := h (k0, vals) (by simp)
    simp [valuesAppend, hne, ih (fun q hq => h q (by simp [hq]))]

/-- Appending under the key of the last entry extends that entry. -/
theorem valuesAppend_last (vs : List (List Nat × List (List Nat)))
    (k : List Nat) (cur : List (List Nat)) (v : List Nat)
    (h : ∀ p ∈ vs, p.1 ≠ k) :
    valuesAppend (vs ++ [(k, cur)]) k v = vs ++ [(k, cur ++ [v])] := by
  induction vs with
  | nil => simp [valuesAppend]
  | cons p rest ih =>
    obtain ⟨k0, vals⟩ := p
    have hne : k0 ≠ k := h (k0, vals) (by simp)
    simp [valuesAppend, hne, ih (fun q hq => h q (by simp [hq]))]

/-- Folding the parser over one key's encoded items extends that key's
entry with all its values. -/
theorem foldl_parseStep_key (vs : List (List Nat × List (List Nat)))
    (k : List Nat) (vals cur : List (List Nat))
    (h : ∀ p ∈ vs, p.1 ≠ k)
    (hk : ∀ b ∈ k, b < 256)
    (hvals : ∀ val ∈ vals, ∀ b ∈ val, b < 256) :
    List.foldl parseStep (vs ++ [(k, cur)])
      (vals.map (fun v => queryEscape k ++ 61 :: queryEscape v)) =
      vs ++ [(k, cur ++ vals)] := by
  induction vals generalizing cur with
  | nil => simp
  | cons v vrest ih =>
    have hstep : parseStep (vs ++ [(k, cur)]) (queryEscape k ++ 61 :: queryEscape v) =
        vs ++ [(k, cur ++ [v])] := by
      simp [parseStep, parsePair_encoded k v hk (hvals v (by simp)),
        valuesAppend_last vs k cur v h]
    rw [List.map_cons, List.foldl_cons, hstep,
      ih (cur ++ [v]) (fun val hval => hvals val (by simp [hval]))]
    simp

/-- Folding the parser over the encoded items of disjoint grouped keys
appends the groups. -/
theorem foldl_parseStep_groups (gs : List (List Nat × List (List Nat)))
    (vs : List (List Nat × List (List Nat)))
    (hdisj : ∀ p ∈ gs, ∀ q ∈ vs, q.1 ≠ p.1)
    (hnodup : (gs.map Prod.fst).Nodup)
    (hne : ∀ p ∈ gs, p.2 ≠ [])
    (hbytes : ∀ p ∈ gs, (∀ b ∈ p.1, b < 256) ∧ ∀ val ∈ p.2, ∀ b ∈ val, b < 256) :
    List.foldl parseStep vs
      ((gs.map (fun p => p.2.map (fun v => queryEscape p.1 ++ 61 :: queryEscape v))).flatten) =
      vs ++ gs := by
  induction gs generalizing vs with
  | nil => simp
  | cons g grest ih =>
    obtain ⟨k, vals⟩ := g
    have hkvs : ∀ q ∈ vs, q.1 ≠ k := fun q hq => hdisj (k, vals) (by simp) q hq
    have hkb : ∀ b ∈ k, b < 256 := (hbytes (k, vals) (by simp)).1
    have hvb : ∀ val ∈ vals, ∀ b ∈ val, b < 256 := (hbytes (k, vals) (by simp)).2
    cases vals with
    | nil => exact absurd rfl (hne (k, []) (by simp))
    | cons v0 vtail =>
      rw [List.map_cons, List.flatten_cons, List.foldl_append]
      have hfirst : parseStep vs (queryEscape k ++ 61 :: queryEscape v0) =
          vs ++ [(k, [v0])] := by
        simp [parseStep, parsePair_encoded k v0 hkb (hvb v0 (by simp)),
          valuesAppend_not_mem vs k v0 hkvs]
      have hkeyfold : List.foldl parseStep vs
          ((v0 :: vtail).map (fun v => queryEscape k ++ 61 :: queryEscape v)) =
          vs ++ [(k, v0 :: vtail)] := by
        rw [List.map_cons, List.foldl_cons, hfirst,
          foldl_parseStep_key vs k vtail [v0] hkvs hkb
            (fun val hval => hvb val (by simp [hval]))]
        simp
      rw [hkeyfold]
      have hknotin : k ∉ grest.map Prod.fst := by
        have := hnodup
        simp only [List.map_cons, List.nodup_cons] at this
        exact this.1
      have hdisj2 : ∀ p ∈ grest, ∀ q ∈ vs ++ [(k, v0 :: vtail)], q.1 ≠ p.1 := by
        intro p hp q hq
        rcases List.mem_append.mp hq with hq | hq
        · exact hdisj p (by simp [hp]) q hq
        · simp at hq
          subst hq
          intro hcontra
          apply hknotin
          rw [show k = p.1 from hcontra]
          exact List.mem_map_of_mem Prod.fst hp
      have hnodup2 : (grest.map Prod.fst).Nodup := by
        have := hnodup
        simp only [List.map_cons, List.nodup_cons] at this
        exact this.2
      rw [ih (vs ++ [(k, v0 :: vtail)]) hdisj2 hnodup2
        (fun p hp => hne p (by simp [hp]))
        (fun p hp => hbytes p (by simp [hp]))]
      simp

/-! ## Sorting and well-formedness lemmas (for claim C3) -/

/-- Inserting into the sorted list is a permutation of consing. -/
theorem insertByKey_perm (p : List Nat × List (List Nat))
    (l : List (List Nat × List (List Nat))) :
    (insertByKey p l).Perm (p :: l) := by
  induction l with
  | nil => exact List.Perm.refl _
  | cons q rest ih =>
    by_cases h : byteKeyLt q.1 p.1
    · rw [insertByKey, if_pos h]
      exact (ih.cons q).trans (List.Perm.swap p q rest)
    · rw [insertByKey, if_neg h]

/-- The encoder's key sort permutes the grouped values. -/
theorem sortValues_perm (vs : List (List Nat × List (List Nat))) :
    (sortValues vs).Perm vs := by
  induction vs with
  | nil => exact List.Perm.refl _
  | cons p rest ih =>
    have e : sortValues (p :: rest) = insertByKey p (sortValues rest) := rfl
    rw [e]
    exact (insertByKey_perm p (sortValues rest)).trans (ih.cons p)

/-- The keys after an append: unchanged when the key was present, extended
by the key otherwise. -/
theorem keys_valuesAppend (vs : List (List Nat × List (List Nat))) (k v : List Nat) :
    (valuesAppend vs k v).map Prod.fst =
      if k ∈ vs.map Prod.fst then vs.map Prod.fst else vs.map Prod.fst ++ [k] := by
  induction vs with
  | nil => simp [valuesAppend]
  | cons p rest ih =>
    obtain ⟨k0, vals⟩ := p
    by_cases h : k0 = k
    · subst h
      simp [valuesAppend]
    · by_cases hmem : k ∈ rest.map Prod.fst
      · simp [valuesAppend, h, ih, hmem, Ne.symm h]
      · simp [valuesAppend, h, ih, hmem, Ne.symm h]

/-- Appending preserves distinctness of keys. -/
theorem nodup_keys_valuesAppend (vs : List (List Nat × List (List Nat)))
    (k v : List Nat) (h : (vs.map Prod.fst).Nodup) :
    ((valuesAppend vs k v).map Prod.fst).Nodup := by
  rw [keys_valuesAppend]
  by_cases hmem : k ∈ vs.map Prod.fst
  · simpa [hmem] using h
  · simp only [hmem, if_false]
    rw [List.nodup_append]
    refine ⟨h, List.nodup_singleton k, ?_⟩
    intro a ha hak
    simp only [List.mem_singleton] at hak
    subst hak
    exact hmem ha

/-- Appending preserves non-emptiness of every value list. -/
theorem vals_ne_nil_valuesAppend (vs : List (List Nat × List (List Nat)))
    (k v : List Nat) (h : ∀ p ∈ vs, p.2 ≠ []) :
    ∀ p ∈ valuesAppend vs k v, p.2 ≠ [] := by
  induction vs with
  | nil =>
    intro p hp
    simp [valuesAppend] at hp
    subst hp
    simp
  | cons q rest ih =>
    obtain ⟨k0, vals⟩ := q
    intro p hp
    by_cases hk : k0 = k
    · subst hk
      simp only [valuesAppend, if_pos rfl] at hp
      rcases List.mem_cons.mp hp with rfl | hp
      · simp
      · exact h p (by simp [hp])
    · simp only [valuesAppend, if_neg hk] at hp
      rcases List.mem_cons.mp hp with rfl | hp
      · exact h (k0, vals) (by simp)
      · exact ih (fun q hq => h q (by simp [hq])) p hp

/-- Appending a byte-bounded pair preserves byte bounds of every entry. -/
theorem bytes_valuesAppend (vs : List (List Nat × List (List Nat)))
    (k v : List Nat)
    (h : ∀ p ∈ vs, (∀ b ∈ p.1, b < 256) ∧ ∀ val ∈ p.2, ∀ b ∈ val, b < 256)
    (hk : ∀ b ∈ k, b < 256) (hv : ∀ b ∈ v, b < 256) :
    ∀ p ∈ valuesAppend vs k v,
      (∀ b ∈ p.1, b < 256) ∧ ∀ val ∈ p.2, ∀ b ∈ val, b < 256 := by
  induction vs with
  | nil =>
    intro p hp
    simp [valuesAppend] at hp
    subst hp
    refine ⟨hk, ?_⟩
    intro val hval
    simp at hval
    subst hval
    exact hv
  | cons q rest ih =>
    obtain ⟨k0, vals⟩ := q
    intro p hp
    by_cases hkk : k0 = k
    · subst hkk
      simp only [valuesAppend, if_pos rfl] at hp
      rcases List.mem_cons.mp hp with rfl | hp
      · have h0 := h (k0, vals) (by simp)
        refine ⟨h0.1, ?_⟩
        intro val hval
        rcases List.mem_append.mp hval with hval | hval
        · exact h0.2 val hval
        · simp at hval
          subst hval
          exact hv
      · exact h p (by simp [hp])
    · simp only [valuesAppend, if_neg hkk] at hp
      rcases List.mem_cons.mp hp with rfl | hp
      · exact h (k0, vals) (by simp)
      · exact ih (fun q hq => h q (by simp [hq])) p hp

/-- The value of a hex digit byte is a nibble. -/
theorem isHexByte_val_lt (x : Nat) (h : isHexByte x = true) : hexByteVal x < 16 := by
  simp only [isHexByte, Bool.or_eq_true, Bool.and_eq_true, decide_eq_true_eq] at h
  unfold hexByteVal
  split
  · omega
  · split <;> omega

/-- Unescaping a byte-bounded string yields byte-bounded output. -/
theorem queryUnescape_bytes : ∀ (n : Nat) (l : List Nat), l.length ≤ n →
    (∀ b ∈ l, b < 256) → ∀ r, queryUnescape l = some r → ∀ b ∈ r, b < 256 := by
  intro n
  induction n with
  | zero =>
    intro l hlen hl r hr
    have he : l = [] := List.length_eq_zero.mp (Nat.le_zero.mp hlen)
    subst he
    simp [queryUnescape] at hr
    subst hr
    simp
  | succ n ih =>
    intro l hlen hl r hr
    cases l with
    | nil =>
      simp [queryUnescape] at hr
      subst hr
      simp
    | cons b rest =>
      rw [queryUnescape.eq_def] at hr
      simp only at hr
      by_cases h37 : b = 37
      · rw [if_pos h37] at hr
        cases rest with
        | nil => simp at hr
        | cons h1 rtail =>
          cases rtail with
          | nil => simp at hr
          | cons h2 rest2 =>
            replace hr : (if (isHexByte h1 && isHexByte h2) = true then
                Option.map (fun t => (hexByteVal h1 * 16 + hexByteVal h2) :: t)
                  (queryUnescape rest2)
              else none) = some r := hr
            by_cases hhex : (isHexByte h1 && isHexByte h2) = true
            · rw [if_pos hhex] at hr
              obtain ⟨r2, hr2, rfl⟩ := Option.map_eq_some'.mp hr
              obtain ⟨hha, hhb⟩ : isHexByte h1 = true ∧ isHexByte h2 = true := by
                simpa using hhex
              intro x hx
              rcases List.mem_cons.mp hx with rfl | hx
              · have hb1 := isHexByte_val_lt h1 hha
                have hb2 := isHexByte_val_lt h2 hhb
                omega
              · refine ih rest2 ?_ (fun y hy => hl y (by simp [hy])) r2 hr2 x hx
                simp only [List.length_cons] at hlen
                omega
            · rw [if_neg hhex] at hr
              cases hr
      · rw [if_neg h37] at hr
        by_cases h43 : b = 43
        · rw [if_pos h43] at hr
          obtain ⟨r2, hr2, rfl⟩ := Option.map_eq_some'.mp hr
          intro x hx
          rcases List.mem_cons.mp hx with rfl | hx
          · omega
          · refine ih rest ?_ (fun y hy => hl y (by simp [hy])) r2 hr2 x hx
            simp only [List.length_cons] at hlen
            omega
        · rw [if_neg h43] at hr
          obtain ⟨r2, hr2, rfl⟩ := Option.map_eq_some'.mp hr
          intro x hx
          rcases List.mem_cons.mp hx with rfl | hx
          · exact hl _ (by simp)
          · refine ih rest ?_ (fun y hy => hl y (by simp [hy])) r2 hr2 x hx
            simp only [List.length_cons] at hlen
            omega

/-- Both halves of the `=`-split are made of bytes of the chunk. -/
theorem mem_breakAtEq (l : List Nat) :
    (∀ b ∈ (breakAtEq l).1, b ∈ l) ∧ (∀ b ∈ (breakAtEq l).2, b ∈ l) := by
  induction l with
  | nil => simp [breakAtEq]
  | cons c rest ih =>
    by_cases h : c = 61
    · subst h
      simp [breakAtEq]
      exact fun b hb => Or.inr hb
    · have e : (c == 61) = false := by simp [h]
      simp only [breakAtEq, e, Bool.false_eq_true, if_false]
      constructor
      · intro b hb
        rcases List.mem_cons.mp hb with rfl | hb
        · simp
        · simp [ih.1 b hb]
      · intro b hb
        simp [ih.2 b hb]

/-- Every byte of every chunk comes from the split string or the
accumulator. -/
theorem mem_splitChunksAux (l : List Nat) :
    ∀ (acc : List Nat), ∀ chunk ∈ splitChunksAux l acc, ∀ b ∈ chunk, b ∈ l ∨ b ∈ acc := by
  induction l with
  | nil =>
    intro acc chunk hchunk b hb
    simp [splitChunksAux] at hchunk
    subst hchunk
    right
    simpa using hb
  | cons c rest ih =>
    intro acc chunk hchunk b hb
    by_cases h : (c == 38 || c == 59) = true
    · simp only [splitChunksAux, h, if_true] at hchunk
      rcases List.mem_cons.mp hchunk with rfl | hchunk
      · right
        simpa using hb
      · rcases ih [] chunk hchunk b hb with h1 | h1
        · left
          simp [h1]
        · simp at h1
    · have e : (c == 38 || c == 59) = false := by
        simpa using h
      simp only [splitChunksAux, e, Bool.false_eq_true, if_false] at hchunk
      rcases ih (c :: acc) chunk hchunk b hb with h1 | h1
      · left
        simp [h1]
      · rcases List.mem_cons.mp h1 with rfl | h1
        · left
          simp
        · right
          exact h1

/-- The map built by the parser has distinct keys, non-empty value lists,
and byte-bounded content whenever the query is byte-bounded. -/
theorem parseQueryBytes_wf (q : List Nat) (hq : ∀ b ∈ q, b < 256) :
    ((parseQueryBytes q).map Prod.fst).Nodup ∧
    (∀ p ∈ parseQueryBytes q, p.2 ≠ []) ∧
    (∀ p ∈ parseQueryBytes q,
      (∀ b ∈ p.1, b < 256) ∧ ∀ val ∈ p.2, ∀ b ∈ val, b < 256) := by
  have hchunks : ∀ chunk ∈ splitQueryChunks q, ∀ b ∈ chunk, b < 256 := by
    intro chunk hc b hb
    unfold splitQueryChunks at hc
    split at hc
    · simp at hc
    · rcases mem_splitChunksAux q [] chunk hc b hb with h | h
      · exact hq b h
      · simp at h
  have main : ∀ (chunks : List (List Nat)) (vs : List (List Nat × List (List Nat))),
      (∀ chunk ∈ chunks, ∀ b ∈ chunk, b < 256) →
      ((vs.map Prod.fst).Nodup ∧ (∀ p ∈ vs, p.2 ≠ []) ∧
        (∀ p ∈ vs, (∀ b ∈ p.1, b < 256) ∧ ∀ val ∈ p.2, ∀ b ∈ val, b < 256)) →
      (((List.foldl parseStep vs chunks).map Prod.fst).Nodup ∧
        (∀ p ∈ List.foldl parseStep vs chunks, p.2 ≠ []) ∧
        (∀ p ∈ List.foldl parseStep vs chunks,
          (∀ b ∈ p.1, b < 256) ∧ ∀ val ∈ p.2, ∀ b ∈ val, b < 256)) := by
    intro chunks
    induction chunks with
    | nil =>
      intro vs _ hinv
      simpa using hinv
    | cons c crest ih =>
      intro vs hb hinv
      rw [List.foldl_cons]
      apply ih _ (fun x hx => hb x (by simp [hx]))
      unfold parseStep
      cases hp : parsePair c with
      | none => exact hinv
      | some kv =>
        obtain ⟨k, v⟩ := kv
        have hcb : ∀ b ∈ c, b < 256 := hb c (by simp)
        have hkv : (∀ b ∈ k, b < 256) ∧ (∀ b ∈ v, b < 256) := by
          unfold parsePair at hp
          split at hp
          · simp at hp
          · cases e1 : queryUnescape (breakAtEq c).1 with
            | none =>
              rw [e1] at hp
              simp at hp
            | some k2 =>
              cases e2 : queryUnescape (breakAtEq c).2 with
              | none =>
                rw [e1, e2] at hp
                simp at hp
              | some v2 =>
                rw [e1, e2] at hp
                simp only [Option.some.injEq, Prod.mk.injEq] at hp
                obtain ⟨rfl, rfl⟩ := hp
                constructor
                · exact queryUnescape_bytes (breakAtEq c).1.length _ le_rfl
                    (fun y hy => hcb y ((mem_breakAtEq c).1 y hy)) _ e1
                · exact queryUnescape_bytes (breakAtEq c).2.length _ le_rfl
                    (fun y hy => hcb y ((mem_breakAtEq c).2 y hy)) _ e2
        exact ⟨nodup_keys_valuesAppend vs k v hinv.1,
          vals_ne_nil_valuesAppend vs k v hinv.2.1,
          bytes_valuesAppend vs k v hinv.2.2 hkv.1 hkv.2⟩
  exact main (splitQueryChunks q) [] hchunks (by simp)

/-! ## Parse after encode, and the effect of Set (for claim C3) -/

/-- Parsing the encoding of a well-formed value map gives the map back,
keys sorted. -/
theorem parseQueryBytes_encodeValues (gs : List (List Nat × List (List Nat)))
    (hnodup : (gs.map Prod.fst).Nodup)
    (hne : ∀ p ∈ gs, p.2 ≠ [])
    (hbytes : ∀ p ∈ gs, (∀ b ∈ p.1, b < 256) ∧ ∀ val ∈ p.2, ∀ b ∈ val, b < 256) :
    parseQueryBytes (encodeValues gs) = sortValues gs := by
  have hperm := sortValues_perm gs
  have hnodup2 : ((sortValues gs).map Prod.fst).Nodup :=
    ((hperm.map Prod.fst).nodup_iff).mpr hnodup
  have hne2 : ∀ p ∈ sortValues gs, p.2 ≠ [] := fun p hp => hne p (hperm.mem_iff.mp hp)
  have hbytes2 : ∀ p ∈ sortValues gs,
      (∀ b ∈ p.1, b < 256) ∧ ∀ val ∈ p.2, ∀ b ∈ val, b < 256 :=
    fun p hp => hbytes p (hperm.mem_iff.mp hp)
  have hpieceform : ∀ piece ∈ ((sortValues gs).map
      (fun p => p.2.map (fun v => queryEscape p.1 ++ 61 :: queryEscape v))).flatten,
      ∃ p, p ∈ sortValues gs ∧ ∃ v, v ∈ p.2 ∧ piece = queryEscape p.1 ++ 61 :: queryEscape v := by
    intro piece hpiece
    simp only [List.mem_flatten, List.mem_map] at hpiece
    obtain ⟨l, ⟨p, hp, rfl⟩, hpl⟩ := hpiece
    obtain ⟨v, hv, rfl⟩ := List.mem_map.mp hpl
    exact ⟨p, hp, v, hv, rfl⟩
  have hne3 : ∀ piece ∈ ((sortValues gs).map
      (fun p => p.2.map (fun v => queryEscape p.1 ++ 61 :: queryEscape v))).flatten,
      piece ≠ [] := by
    intro piece hpiece
    obtain ⟨p, hp, v, hv, rfl⟩ := hpieceform piece hpiece
    intro hcontra
    rcases List.append_eq_nil.mp hcontra with ⟨-, h2⟩
    exact List.cons_ne_nil _ _ h2
  have hsep3 : ∀ piece ∈ ((sortValues gs).map
      (fun p => p.2.map (fun v => queryEscape p.1 ++ 61 :: queryEscape v))).flatten,
      ∀ b ∈ piece, b ≠ 38 ∧ b ≠ 59 := by
    intro piece hpiece b hb
    obtain ⟨p, hp, v, hv, rfl⟩ := hpieceform piece hpiece
    rcases List.mem_append.mp hb with h | h
    · have := mem_queryEscape_not_sep p.1 b h
      exact ⟨this.1, this.2.1⟩
    · rcases List.mem_cons.mp h with rfl | h
      · omega
      · have := mem_queryEscape_not_sep v b h
        exact ⟨this.1, this.2.1⟩
  rw [parseQueryBytes, encodeValues, splitQueryChunks_joinAmp _ hne3 hsep3]
  have := foldl_parseStep_groups (sortValues gs) [] (by simp) hnodup2 hne2 hbytes2
  simpa using this

/-- Every byte of an encoded well-formed value map is ASCII. -/
theorem mem_joinAmp (ps : List (List Nat)) (b : Nat) (hb : b ∈ joinAmp ps) :
    b = 38 ∨ ∃ p ∈ ps, b ∈ p := by
  induction ps with
  | nil => simp [joinAmp] at hb
  | cons p rest ih =>
    cases rest with
    | nil =>
      right
      exact ⟨p, by simp, by simpa [joinAmp] using hb⟩
    | cons q rest2 =>
      rw [joinAmp] at hb
      rcases List.mem_append.mp hb with h | h
      · right
        exact ⟨p, by simp, h⟩
      · rcases List.mem_cons.mp h with rfl | h
        · left
          rfl
        · rcases ih h with h38 | ⟨p2, hp2, hbp⟩
          · left
            exact h38
          · right
            exact ⟨p2, by simp [hp2], hbp⟩

/-- Encoding a byte-bounded value map produces only ASCII bytes. -/
theorem mem_encodeValues_lt_128 (gs : List (List Nat × List (List Nat)))
    (hbytes : ∀ p ∈ gs, (∀ b ∈ p.1, b < 256) ∧ ∀ val ∈ p.2, ∀ b ∈ val, b < 256) :
    ∀ b ∈ encodeValues gs, b < 128 := by
  intro b hb
  rw [encodeValues] at hb
  rcases mem_joinAmp _ b hb with rfl | ⟨piece, hpiece, hbp⟩
  · omega
  · simp only [List.mem_flatten, List.mem_map] at hpiece
    obtain ⟨l, ⟨p, hp, rfl⟩, hpl⟩ := hpiece
    obtain ⟨v, hv, rfl⟩ := List.mem_map.mp hpl
    have hp2 := hbytes p ((sortValues_perm gs).mem_iff.mp hp)
    rcases List.mem_append.mp hbp with h | h
    · exact mem_queryEscape_lt_128 _ hp2.1 b h
    · rcases List.mem_cons.mp h with rfl | h
      · omega
      · exact mem_queryEscape_lt_128 _ (hp2.2 v hv) b h

/-- The keys after a Set: unchanged when the key was present, extended by
the key otherwise. -/
theorem keys_valuesSet (vs : List (List Nat × List (List Nat))) (k v : List Nat) :
    (valuesSet vs k v).map Prod.fst =
      if vs.any (fun p => decide (p.1 = k)) = true then vs.map Prod.fst
      else vs.map Prod.fst ++ [k] := by
  by_cases h : vs.any (fun p => decide (p.1 = k)) = true
  · rw [valuesSet, if_pos h, if_pos h, List.map_map]
    apply List.map_congr_left
    intro p hp
    by_cases hpk : p.1 = k
    · simp [hpk]
    · simp [hpk]
  · rw [valuesSet, if_neg h, if_neg h]
    simp

/-- Set preserves distinctness of keys. -/
theorem nodup_keys_valuesSet (vs : List (List Nat × List (List Nat)))
    (k v : List Nat) (h : (vs.map Prod.fst).Nodup) :
    ((valuesSet vs k v).map Prod.fst).Nodup := by
  rw [keys_valuesSet]
  split
  · exact h
  · next hany =>
    rw [List.nodup_append]
    refine ⟨h, List.nodup_singleton k, ?_⟩
    intro a ha hak
    simp only [List.mem_singleton] at hak
    subst hak
    obtain ⟨p, hp, he⟩ := List.mem_map.mp ha
    exact hany (List.any_eq_true.mpr ⟨p, hp, by simp [he]⟩)

/-- Set preserves non-emptiness of every value list. -/
theorem vals_ne_nil_valuesSet (vs : List (List Nat × List (List Nat)))
    (k v : List Nat) (h : ∀ p ∈ vs, p.2 ≠ []) :
    ∀ p ∈ valuesSet vs k v, p.2 ≠ [] := by
  intro p hp
  rw [valuesSet] at hp
  split at hp
  · obtain ⟨p0, hp0, he⟩ := List.mem_map.mp hp
    by_cases hk : p0.1 = k
    · rw [if_pos hk] at he
      rw [← he]
      simp
    · rw [if_neg hk] at he
      rw [← he]
      exact h p0 hp0
  · rcases List.mem_append.mp hp with hp | hp
    · exact h p hp
    · simp only [List.mem_singleton] at hp
      subst hp
      simp

/-- Set with byte-bounded key and value preserves byte bounds. -/
theorem bytes_valuesSet (vs : List (List Nat × List (List Nat)))
    (k v : List Nat)
    (h : ∀ p ∈ vs, (∀ b ∈ p.1, b < 256) ∧ ∀ val ∈ p.2, ∀ b ∈ val, b < 256)
    (hk : ∀ b ∈ k, b < 256) (hv : ∀ b ∈ v, b < 256) :
    ∀ p ∈ valuesSet vs k v,
      (∀ b ∈ p.1, b < 256) ∧ ∀ val ∈ p.2, ∀ b ∈ val, b < 256 := by
  intro p hp
  rw [valuesSet] at hp
  split at hp
  · obtain ⟨p0, hp0, he⟩ := List.mem_map.mp hp
    by_cases hpk : p0.1 = k
    · rw [if_pos hpk] at he
      rw [← he]
      refine ⟨hk, ?_⟩
      intro val hval
      simp only [List.mem_singleton] at hval
      subst hval
      exact hv
    · rw [if_neg hpk] at he
      rw [← he]
      exact h p0 hp0
  · rcases List.mem_append.mp hp with hp | hp
    · exact h p hp
    · simp only [List.mem_singleton] at hp
      subst hp
      refine ⟨hk, ?_⟩
      intro val hval
      simp only [List.mem_singleton] at hval
      subst hval
      exact hv

/-- Every decoded pair's key is the key of some entry. -/
theorem mem_flattenValues (vs : List (List Nat × List (List Nat)))
    (pr : List Nat × List Nat) (h : pr ∈ flattenValues vs) :
    ∃ p ∈ vs, pr.1 = p.1 ∧ pr.2 ∈ p.2 := by
  simp only [flattenValues, List.mem_flatten, List.mem_map] at h
  obtain ⟨l, ⟨p, hp, rfl⟩, hprl⟩ := h
  obtain ⟨v, hv, rfl⟩ := List.mem_map.mp hprl
  exact ⟨p, hp, rfl, hv⟩

/-- Filtering away an absent key changes nothing. -/
theorem filter_flattenValues_id (vs : List (List Nat × List (List Nat)))
    (k : List Nat) (h : ∀ p ∈ vs, p.1 ≠ k) :
    (flattenValues vs).filter (fun pr => decide (pr.1 ≠ k)) = flattenValues vs := by
  rw [List.filter_eq_self]
  intro pr hpr
  obtain ⟨p, hp, he, -⟩ := mem_flattenValues vs pr hpr
  simp [he, h p hp]

/-- A Set over key-distinct entries leaves entries under other keys
unchanged. -/
theorem map_valuesSet_id (rest : List (List Nat × List (List Nat)))
    (k v : List Nat) (h : ∀ p ∈ rest, p.1 ≠ k) :
    rest.map (fun p => if p.1 = k then (k, [v]) else p) = rest := by
  induction rest with
  | nil => rfl
  | cons p r ih =>
    simp [h p (by simp), ih (fun q hq => h q (by simp [hq]))]

/-- Decoded pairs after a Set: the pairs under other keys, plus the single
new pair — existing pairs under the set key are gone. -/
theorem flattenValues_valuesSet (vs : List (List Nat × List (List Nat)))
    (k v : List Nat) (hnodup : (vs.map Prod.fst).Nodup) :
    (flattenValues (valuesSet vs k v)).Perm
      ((flattenValues vs).filter (fun pr => decide (pr.1 ≠ k)) ++ [(k, v)]) := by
  induction vs with
  | nil =>
    simp [valuesSet, flattenValues]
  | cons p rest ih =>
    obtain ⟨k0, vals⟩ := p
    have hnodup2 : (rest.map Prod.fst).Nodup := by
      simp only [List.map_cons, List.nodup_cons] at hnodup
      exact hnodup.2
    have hk0notin : k0 ∉ rest.map Prod.fst := by
      simp only [List.map_cons, List.nodup_cons] at hnodup
      exact hnodup.1
    by_cases hk0 : k0 = k
    · subst hk0
      have hrest : ∀ p ∈ rest, p.1 ≠ k0 := by
        intro p hp he
        exact hk0notin (he ▸ List.mem_map_of_mem Prod.fst hp)
      have hany : (((k0, vals) :: rest).any (fun p => decide (p.1 = k0))) = true := by
        simp
      rw [valuesSet, if_pos hany, List.map_cons]
      rw [show (if ((k0, vals) : List Nat × List (List Nat)).1 = k0 then (k0, [v])
        else (k0, vals)) = (k0, [v]) from if_pos rfl]
      rw [map_valuesSet_id rest k0 v hrest]
      have e1 : flattenValues ((k0, [v]) :: rest) = (k0, v) :: flattenValues rest := by
        simp [flattenValues]
      have e2 : flattenValues ((k0, vals) :: rest) =
          vals.map (fun v2 => (k0, v2)) ++ flattenValues rest := by
        simp [flattenValues]
      rw [e1, e2, List.filter_append]
      have e3 : (vals.map (fun v2 => ((k0, v2) : List Nat × List Nat))).filter
          (fun pr => decide (pr.1 ≠ k0)) = [] := by
        rw [List.filter_eq_nil_iff]
        intro pr hpr
        obtain ⟨v2, hv2, rfl⟩ := List.mem_map.mp hpr
        simp
      rw [e3, filter_flattenValues_id rest k0 hrest, List.nil_append]
      exact (List.perm_append_singleton _ _).symm
    · by_cases hany : rest.any (fun p => decide (p.1 = k)) = true
      · have hanyall : (((k0, vals) :: rest).any (fun p => decide (p.1 = k))) = true := by
          simp [hany]
        rw [valuesSet, if_pos hanyall, List.map_cons]
        rw [show (if ((k0, vals) : List Nat × List (List Nat)).1 = k then (k, [v])
          else (k0, vals)) = (k0, vals) from if_neg hk0]
        have eih := ih hnodup2
        rw [valuesSet, if_pos hany] at eih
        have e1 : flattenValues ((k0, vals) ::
            rest.map (fun p => if p.1 = k then (k, [v]) else p)) =
            vals.map (fun v2 => (k0, v2)) ++
              flattenValues (rest.map (fun p => if p.1 = k then (k, [v]) else p)) := by
          simp [flattenValues]
        have e2 : flattenValues ((k0, vals) :: rest) =
            vals.map (fun v2 => (k0, v2)) ++ flattenValues rest := by
          simp [flattenValues]
        rw [e1, e2, List.filter_append]
        have e3 : (vals.map (fun v2 => ((k0, v2) : List Nat × List Nat))).filter
            (fun pr => decide (pr.1 ≠ k)) = vals.map (fun v2 => (k0, v2)) := by
          rw [List.filter_eq_self]
          intro pr hpr
          obtain ⟨v2, hv2, rfl⟩ := List.mem_map.mp hpr
          simp [hk0]
        rw [e3, List.append_assoc]
        exact List.Perm.append_left _ eih
      · have hrestk : ∀ p ∈ rest, p.1 ≠ k := by
          intro p hp he
          exact hany (List.any_eq_true.mpr ⟨p, hp, by simp [he]⟩)
        have hanyall : ¬ (((k0, vals) :: rest).any (fun p => decide (p.1 = k))) = true := by
          simp only [List.any_cons, Bool.or_eq_true, decide_eq_true_eq]
          push_neg
          refine ⟨hk0, ?_⟩
          simpa using hany
        rw [valuesSet, if_neg hanyall]
        have e1 : flattenValues (((k0, vals) :: rest) ++ [(k, [v])]) =
            flattenValues ((k0, vals) :: rest) ++ [(k, v)] := by
          simp [flattenValues]
        rw [e1]
        have hall : ∀ p ∈ (k0, vals) :: rest, p.1 ≠ k := by
          intro p hp
          rcases List.mem_cons.mp hp with rfl | hp
          · exact hk0
          · exact hrestk p hp
        rw [filter_flattenValues_id _ k hall]

/-- The full annotation step: the decoded pairs of the rewritten raw query
are exactly the original pairs under keys other than `drain-type`, plus the
single pair `drain-type=<value>`, up to reordering. -/
theorem annotateDrainType_pairs (u : URL) (dt : String) :
    (decodedPairs (utf8Bytes (annotateDrainType u dt).rawQuery)).Perm
      (((decodedPairs (utf8Bytes u.rawQuery)).filter
          (fun pr => decide (pr.1 ≠ drainTypeKey))) ++ [(drainTypeKey, utf8Bytes dt)]) := by
  have hqb : ∀ b ∈ utf8Bytes u.rawQuery, b < 256 := fun b hb => mem_utf8Bytes_lt_256 _ b hb
  have hwf := parseQueryBytes_wf (utf8Bytes u.rawQuery) hqb
  have hkb : ∀ b ∈ drainTypeKey, b < 256 := fun b hb => mem_utf8Bytes_lt_256 "drain-type" b hb
  have hvb : ∀ b ∈ utf8Bytes dt, b < 256 := fun b hb => mem_utf8Bytes_lt_256 dt b hb
  have hnodup2 := nodup_keys_valuesSet _ drainTypeKey (utf8Bytes dt) hwf.1
  have hne2 := vals_ne_nil_valuesSet _ drainTypeKey (utf8Bytes dt) hwf.2.1
  have hbytes2 := bytes_valuesSet _ drainTypeKey (utf8Bytes dt) hwf.2.2 hkb hvb
  have e0 : (annotateDrainType u dt).rawQuery =
      asciiString (encodeValues (valuesSet (parseQueryBytes (utf8Bytes u.rawQuery))
        drainTypeKey (utf8Bytes dt))) := rfl
  rw [e0, utf8Bytes_asciiString _ (mem_encodeValues_lt_128 _ hbytes2)]
  rw [decodedPairs, parseQueryBytes_encodeValues _ hnodup2 hne2 hbytes2]
  have hsp : (flattenValues (sortValues (valuesSet (parseQueryBytes (utf8Bytes u.rawQuery))
      drainTypeKey (utf8Bytes dt)))).Perm
      (flattenValues (valuesSet (parseQueryBytes (utf8Bytes u.rawQuery))
        drainTypeKey (utf8Bytes dt))) :=
    List.Perm.flatten ((sortValues_perm _).map _)
  exact hsp.trans (flattenValues_valuesSet _ drainTypeKey (utf8Bytes dt) hwf.1)

/-! ## Claim C3 (amended): drain-type annotation of the URL -/

/-- C3 amended: a valid `--type` value sets `drain-type=<value>` in the
drain URL's query string with deterministic encoding — every existing query
parameter under a key other than `drain-type` is preserved as a decoded
key-value pair, while any existing `drain-type` parameters are replaced by
the single new pair; the annotated URL is the one used in the subsequent
commands; any other value fails with `Invalid type: <value>`. -/
theorem c3_drain_type_annotation :
    (∀ (u : URL) (dt : String), validDrainType dt = true →
      (decodedPairs (utf8Bytes (annotateDrainType u dt).rawQuery)).Perm
        (((decodedPairs (utf8Bytes u.rawQuery)).filter
            (fun pr => decide (pr.1 ≠ drainTypeKey))) ++ [(drainTypeKey, utf8Bytes dt)])) ∧
    (∀ (env : Env) (opts : CreateDrainOpts) (target urlStr : String) (u0 : URL) (g : String),
      opts.AdapterType = "service" →
      parseURL urlStr = Except.ok u0 →
      opts.DrainType ≠ "" → validDrainType opts.DrainType = true →
      env.getApp target = Except.ok g →
      env.cliCommand ["create-user-provided-service", opts.serviceName env.serviceUuid,
        "-l", urlString (annotateDrainType u0 opts.DrainType)] = Except.ok () →
      env.cliCommand ["bind-service", target, opts.serviceName env.serviceUuid] =
        Except.ok () →
      CreateDrain env opts [target, urlStr] =
        ⟨[Ev.getApp target,
          Ev.cli ["create-user-provided-service", opts.serviceName env.serviceUuid, "-l",
            urlString (annotateDrainType u0 opts.DrainType)],
          Ev.cli ["bind-service", target, opts.serviceName env.serviceUuid]],
          Outcome.ok⟩) ∧
    (∀ (env : Env) (opts : CreateDrainOpts) (target urlStr : String) (u0 : URL),
      parseURL urlStr = Except.ok u0 →
      opts.DrainType ≠ "" → validDrainType opts.DrainType = false →
      CreateDrain env opts [target, urlStr] =
        ⟨[], Outcome.fatal ("Invalid type: " ++ opts.DrainType)⟩) := by
  refine ⟨?_, ?_, ?_⟩
  · intro u dt _
    exact annotateDrainType_pairs u dt
  · intro env opts target urlStr u0 g hAd hParse hDT hValid hApp h1 h2
    have hd := CreateDrain_service_dispatch env opts target urlStr u0 hAd hParse
      (Or.inr hValid)
    rw [if_neg hDT] at hd
    rw [hd, createAndBindService_all_ok env _ target _ g hApp h1 h2]
  · intro env opts target urlStr u0 hParse hDT hInvalid
    simp [CreateDrain, hParse, hDT, hInvalid]

/-- Witness for the amended C3: annotating `syslog://a.com?a=b` with type
`logs` yields the query `a=b&drain-type=logs`, whose decoded pairs are the
original pair plus the drain-type pair. -/
theorem c3_drain_type_annotation_witness :
    validDrainType "logs" = true ∧
    (annotateDrainType ⟨"syslog://a.com", "a=b", ""⟩ "logs").rawQuery =
      "a=b&drain-type=logs" ∧
    (decodedPairs (utf8Bytes "a=b&drain-type=logs")).Perm
      (((decodedPairs (utf8Bytes "a=b")).filter
          (fun pr => decide (pr.1 ≠ drainTypeKey))) ++ [(drainTypeKey, utf8Bytes "logs")]) := by
  refine ⟨by decide, by decide, ?_⟩
  have h := c3_drain_type_annotation.1 ⟨"syslog://a.com", "a=b", ""⟩ "logs" (by decide)
  rw [show (annotateDrainType ⟨"syslog://a.com", "a=b", ""⟩ "logs").rawQuery =
    "a=b&drain-type=logs" from by decide] at h
  exact h

/-- Counterexample to C3 as stated: on a URL whose query already holds
`drain-type=foo`, annotating with type `logs` removes that existing
parameter (Go's `Values.Set` overwrites it), so not every existing query
parameter survives. -/
theorem c3_drain_type_annotation_counterexample :
    parseURL "syslog://a.com?drain-type=foo" =
      Except.ok ⟨"syslog://a.com", "drain-type=foo", ""⟩ ∧
    (utf8Bytes "drain-type", utf8Bytes "foo") ∈
      decodedPairs (utf8Bytes "drain-type=foo") ∧
    (annotateDrainType ⟨"syslog://a.com", "drain-type=foo", ""⟩ "logs").rawQuery =
      "drain-type=logs" ∧
    (utf8Bytes "drain-type", utf8Bytes "foo") ∉
      decodedPairs (utf8Bytes
        (annotateDrainType ⟨"syslog://a.com", "drain-type=foo", ""⟩ "logs").rawQuery) := by
  refine ⟨by decide, by decide, by decide, ?_⟩
  rw [show (annotateDrainType ⟨"syslog://a.com", "drain-type=foo", ""⟩ "logs").rawQuery =
    "drain-type=logs" from by decide]
  decide

/-- Witness for C9 at adapter type `foo`. -/
theorem c9_unsupported_adapter_type_witness :
    CreateDrain envA { defaultCreateDrainOpts with AdapterType := "foo" }
        ["app-name", "syslog://a.com?a=b"] =
      ⟨[], Outcome.fatal "unsupported adapter type, must be 'service' or 'application'"⟩ :=
  c9_unsupported_adapter_type.2 envA _ "app-name" "syslog://a.com?a=b"
    ⟨"syslog://a.com", "a=b", ""⟩ (by decide) (Or.inl rfl) (by decide) (by decide)

end CfDrain
